import Mathlib

set_option maxHeartbeats 1000000

/-! Verification development for the noWorkflow execution-provenance collector
(`capture/noworkflow/now/collection/prov_execution/collector.py`).

The collector is shallowly embedded: Python runtime objects become the
inductive `PyObj`, the metascript's typed record buffers become lists in
`State`, and each collector method becomes a state-passing Lean function of
the same name in namespace `Collector`.  Python `Dependency` objects are
mutable and aliased across scopes, so they live in an explicit heap
(`State.depHeap`) addressed by list index; a mode rewrite is a heap update,
which makes the rewrite visible through every alias, exactly as in Python.
Record identifiers are modelled 1-based, so that every assigned id is truthy
in Python's sense; `None` slots are `Option`.  Partial persistence (the
`store` / `fast_store` machinery) is outside every claim and is modelled as
the configuration `save_frequency = None`: `time` only advances the clock. -/

namespace NW

/-- Python runtime objects as seen by the collector: the type-of-types `type`,
classes (with their metaclass), plain instances (with identity `oid`, class
and an opaque repr) and sequence objects (list or tuple, with identity and
elements).  Object identity (`is`) is modelled by structural equality: two
distinct runtime objects are always given distinct `oid`s.  A sequence
element is the atom `(oid, class name, repr)`; `embedElem` turns it back
into the object it stands for (the universe spells out one level of
container nesting, a deeper container appearing as an element is the atom
of its class). -/
inductive PyObj where
  | pytype : PyObj
  | cls (name : String) (meta : PyObj) : PyObj
  | obj (oid : Nat) (ty : PyObj) (rep : String) : PyObj
  | seq (oid : Nat) (tyname : String) (elems : List (Nat × String × String)) : PyObj
deriving DecidableEq

/-- The object a sequence-element atom stands for. -/
def embedElem (e : Nat × String × String) : PyObj :=
  PyObj.obj e.1 (PyObj.cls e.2.1 PyObj.pytype) e.2.2

/-- Python's `type(v)`: `type` is its own type, the type of a class is its
metaclass, the type of an instance is its class, the type of a sequence is
the `list` or `tuple` class. -/
def PyObj.typeOf : PyObj → PyObj
  | .pytype => .pytype
  | .cls _ meta => meta
  | .obj _ ty _ => ty
  | .seq _ tyname _ => .cls tyname .pytype

/-- Length of the metaclass chain above an object; Python guarantees this is
finite (every chain of `type(...)` applications reaches `type`). -/
def PyObj.depth : PyObj → Nat
  | .pytype => 0
  | .cls _ meta => meta.depth + 1
  | .obj _ ty _ => ty.depth + 1
  | .seq _ _ _ => 2

theorem PyObj.depth_typeOf_lt (v : PyObj) (h : v ≠ PyObj.pytype) :
    v.typeOf.depth < v.depth := by
  cases v with
  | pytype => exact absurd rfl h
  | cls n meta => simp [PyObj.typeOf, PyObj.depth]
  | obj oid ty rep => simp [PyObj.typeOf, PyObj.depth]
  | seq oid t es => simp [PyObj.typeOf, PyObj.depth]

/-- Models Python's `repr`.  The collector stores the result as an opaque
string, so any encoding that distinguishes the objects of a run does; we use
the carried repr for instances and a shape tag for the rest. -/
def reprPy : PyObj → String
  | .pytype => "<class 'type'>"
  | .cls n _ => "<class '" ++ n ++ "'>"
  | .obj _ _ rep => rep
  | .seq oid tyname es => tyname ++ "#" ++ toString oid ++ "/" ++ toString es.length

/-- Modelled from the spec: `cross_version.IMMUTABLE` (module not under
`src/`) is the tuple of immutable builtin types; "for immutable values only
the single-dependency case qualifies". -/
def immutableTypeNames : List String :=
  ["bool", "int", "float", "complex", "str", "bytes", "NoneType"]

/-- Models `isinstance(value, IMMUTABLE)`. -/
def isImmutable : PyObj → Bool
  | .obj _ (.cls n _) _ => immutableTypeNames.contains n
  | _ => false

/-- Modelled from the spec: `cross_version.isiterable` (module not under
`src/`); sequence objects, and atoms embedding a container, are iterable. -/
def iterableTypeNames : List String :=
  ["list", "tuple", "set", "frozenset", "dict", "str", "bytes"]

/-- Models `isiterable(value)`. -/
def isiterable : PyObj → Bool
  | .seq _ _ _ => true
  | .obj _ (.cls n _) _ => iterableTypeNames.contains n
  | _ => false

/-- Models Python's `str.startswith`. -/
def strStartsWith (s p : String) : Bool := p.data.isPrefixOf s.data

/-- Models Python's `str.endswith`. -/
def strEndsWith (s p : String) : Bool := p.data.reverse.isPrefixOf s.data.reverse

/-- Python list indexing `xs[i]` over a Lean list: a negative index counts
from the end; out of range raises `IndexError`. -/
def pyIndex {α : Type} (xs : List α) (i : Int) : Except String α :=
  let j : Int := if i < 0 then i + xs.length else i
  if h : 0 ≤ j ∧ j.toNat < xs.length then .ok (xs.get ⟨j.toNat, h.2⟩)
  else .error "IndexError"

/-- Python slicing `xs[a:b]` over a Lean list: negative bounds count from the
end, then both bounds are clamped to `[0, len]`; empty when `a ≥ b`. -/
def pySlice {α : Type} (xs : List α) (a b : Int) : List α :=
  let n : Int := xs.length
  let a' : Int := if a < 0 then max 0 (n + a) else min a n
  let b' : Int := if b < 0 then max 0 (n + b) else min b n
  ((xs.drop a'.toNat).take (b' - a').toNat)

/-- A row of the values store: `{id, repr, type_id}`. -/
structure Value where
  id : Int
  rep : String
  type_id : Int
deriving DecidableEq

/-- A row of the evaluations store:
`{id, code_component_id, activation_id, moment, value_id}`. -/
structure Evaluation where
  id : Int
  code_component_id : Int
  activation_id : Int
  moment : Option Nat
  value_id : Option Int
deriving DecidableEq

/-- A committed row of the dependencies store (a provenance edge). -/
structure DepEdge where
  dependent_activation_id : Int
  dependent_evaluation_id : Int
  dependency_activation_id : Int
  dependency_evaluation_id : Int
  mode : String
deriving DecidableEq

/-- A row of the compartments store: `add_object(key, moment, whole, part)`. -/
structure Compartment where
  name : String
  moment : Nat
  whole_id : Option Int
  part_id : Option Int
deriving DecidableEq

/-- A transient `Dependency` object (from `prov_execution.structures`, a
module not under `src/`; its constructor argument order
`(activation_id, evaluation_id, value, value_id, mode)` and its mutable
`mode`, `sub_dependencies`, `arg`, `kind` slots are pinned by the collector's
uses).  `sub_dependencies` holds heap indices of other Dependency objects. -/
structure Dependency where
  activation_id : Int
  evaluation_id : Int
  value : PyObj
  value_id : Option Int
  mode : String
  sub_dependencies : List Nat := []
  arg : String := ""
  kind : String := ""
deriving DecidableEq

/-- A dependency-aware scope (from `prov_execution.structures`, not under
`src/`; modelled from the spec: three variants that "differ only in auxiliary
slots; all carry an ordered dependency list").  One structure covers plain
(`DependencyAware`), compartment (`key` slot) and collection (`items` slot)
scopes; `dependencies` holds heap indices. -/
structure DependencyAware where
  dependencies : List Nat := []
  items : List (PyObj × Option Int × Nat) := []
  key : Option PyObj := none
deriving DecidableEq

/-- Modelled from the spec: `DependencyAware.join` concatenates the
dependency lists of a list of scopes (sharing the Dependency objects). -/
def DependencyAware.join (l : List DependencyAware) : DependencyAware :=
  { dependencies := (l.map DependencyAware.dependencies).flatten }

/-- An `Assign(moment, value, dependency)` record
(`prov_execution.structures`). -/
structure AssignRec where
  moment : Nat
  value : PyObj
  depa : DependencyAware
deriving DecidableEq

/-- A lightweight activation: persistent fields (`id` is shared with its
evaluation, as the relational model's foreign key `activation.id →
evaluation.id` records) plus the transient runtime state the collector uses:
`context` (name → evaluation id), the dependency scope stack `depstack`
(Python `activation.dependencies`), pending assignments, the result mode for
`_call`, and the closure link ("links closure to the parent by default"). -/
structure Activation where
  id : Int
  name : String
  start : Option Nat
  code_block_id : Option Int
  context : List (String × Int) := []
  depstack : List DependencyAware := []
  assignments : List AssignRec := []
  depedency_type : String := "dependency"
  closure : Option Int := none
deriving DecidableEq

/-- The collector's mutable state: the typed record buffers, the shared-types
cache, the activation store with the `first/last_activation` pointers, the
heap of transient Dependency objects, the global lookups, the host clock and
the host allocator (fresh object identities for slices). -/
structure State where
  values : List Value := []
  evaluations : List Evaluation := []
  dependencies : List DepEdge := []
  compartments : List Compartment := []
  exceptions : List (String × Int) := []
  code_components : Nat := 0
  shared_types : List (PyObj × Int) := []
  activations : List Activation := []
  depHeap : List Dependency := []
  first_activation : Int := 1
  last_activation : Int := 1
  global_evaluations : List (String × Int) := []
  globals : List (String × PyObj) := []
  clock : Nat := 0
  nextOid : Nat := 1000
deriving DecidableEq

/-- Assoc-list lookup keyed by runtime object (a Python dict keyed by the
type object). -/
def lookupST (k : PyObj) : List (PyObj × Int) → Option Int
  | [] => none
  | (a, b) :: rest => if a = k then some b else lookupST k rest

/-- Python dict assignment `d[k] = v`: replace the binding when present,
append otherwise. -/
def insertST (k : PyObj) (v : Int) : List (PyObj × Int) → List (PyObj × Int)
  | [] => [(k, v)]
  | (a, b) :: rest => if a = k then (k, v) :: rest else (a, b) :: insertST k v rest

/-- Assoc-list lookup for string-keyed dicts (`context`,
`global_evaluations`, `globals`). -/
def lookupStr {α : Type} (k : String) : List (String × α) → Option α
  | [] => none
  | (a, b) :: rest => if a = k then some b else lookupStr k rest

/-- Python dict assignment for string-keyed dicts. -/
def insertStr {α : Type} (k : String) (v : α) :
    List (String × α) → List (String × α)
  | [] => [(k, v)]
  | (a, b) :: rest =>
      if a = k then (k, v) :: rest else (a, b) :: insertStr k v rest

namespace Collector

/-- `__init__` with an empty metascript: the dry-added root evaluation
(`dry_add(-1, -1, None, None)`) and `<now>` activation; `globals` is the
(host-supplied) builtins dict.  Dry-added records share the id sequence with
enqueued ones; since flushing is not modelled the root rows simply sit in the
lists. -/
def State.init (globals : List (String × PyObj)) : State :=
  { evaluations := [{ id := 1, code_component_id := -1, activation_id := -1,
                      moment := none, value_id := none }],
    activations := [{ id := 1, name := "<now>", start := none,
                      code_block_id := none }],
    first_activation := 1,
    last_activation := 1,
    globals := globals }

/-- `time`: returns the host timestamp.  The partial-save branch is the
configuration `partial_save_frequency = None` (no claim concerns flushing),
so the method only reads the clock; successive calls give strictly
increasing moments. -/
def time (s : State) : State × Nat :=
  ({ s with clock := s.clock + 1 }, s.clock + 1)

/-- Fuel-indexed body of `add_value`; the fuel is an upper bound on the
metaclass chain length, which Python guarantees finite
(`add_value` below always supplies enough). -/
def add_value_fuel : Nat → State → PyObj → State × Int
  | 0, s, _ => (s, 0)
  | fuel + 1, s, v =>
    if v = PyObj.pytype then
      -- value_object = values.add_object(repr(value), -1);
      -- value_object.type_id = value_object.id; shared_types[value] = id
      let vid : Int := (s.values.length : Int) + 1
      ({ s with values := s.values ++ [{ id := vid, rep := reprPy v, type_id := vid }],
                shared_types := insertST v vid s.shared_types }, vid)
    else
      let t := v.typeOf
      let s1 :=
        match lookupST t s.shared_types with
        | some _ => s
        | none =>
          let p := add_value_fuel fuel s t
          { p.1 with shared_types := insertST t p.2 p.1.shared_types }
      let type_id : Int := (lookupST t s1.shared_types).getD 0
      let vid : Int := (s1.values.length : Int) + 1
      ({ s1 with values :=
          s1.values ++ [{ id := vid, rep := reprPy v, type_id := type_id }] }, vid)

/-- `add_value(value)`: "Add value. Create type value recursively. Return
value id". -/
def add_value (s : State) (v : PyObj) : State × Int :=
  add_value_fuel (v.depth + 1) s v

/-- Python `None`. -/
def pyNone : PyObj := PyObj.obj 0 (PyObj.cls "NoneType" PyObj.pytype) "None"

/-- Activation store lookup by id. -/
def getAct (s : State) (i : Int) : Option Activation :=
  s.activations.find? (fun a => a.id == i)

/-- In-place mutation of the activation object with id `i` (the store holds
one object per id). -/
def updAct (s : State) (i : Int) (f : Activation → Activation) : State :=
  { s with activations := s.activations.map (fun a => if a.id == i then f a else a) }

/-- Evaluation store lookup by id. -/
def getEval (s : State) (i : Int) : Option Evaluation :=
  s.evaluations.find? (fun e => e.id == i)

/-- In-place mutation of the evaluation object with id `i`. -/
def updEval (s : State) (i : Int) (f : Evaluation → Evaluation) : State :=
  { s with evaluations := s.evaluations.map (fun e => if e.id == i then f e else e) }

/-- Dependency-heap read. -/
def getDep (s : State) (k : Nat) : Option Dependency := s.depHeap.get? k

/-- Dependency-heap write (a mutation of one shared Dependency object). -/
def setDep (s : State) (k : Nat) (d : Dependency) : State :=
  { s with depHeap := s.depHeap.set k d }

/-- Allocate a fresh Dependency object; returns its heap index. -/
def newDep (s : State) (d : Dependency) : State × Nat :=
  ({ s with depHeap := s.depHeap ++ [d] }, s.depHeap.length)

/-- `evaluations.add` / `add_object`: append a row to the evaluations
store. -/
def addEvaluationRow (s : State) (ev : Evaluation) : State :=
  { s with evaluations := s.evaluations ++ [ev] }

/-- `activation.dependencies.append(scope)`. -/
def pushScope (s : State) (actId : Int) (d : DependencyAware) : State :=
  updAct s actId (fun a => { a with depstack := a.depstack ++ [d] })

/-- `activation.dependencies.pop()`: remove and return the top scope
(IndexError on an empty stack). -/
def popScope (s : State) (actId : Int) : Except String (State × DependencyAware) :=
  match getAct s actId with
  | none => .error "no activation"
  | some a =>
    match a.depstack.getLast? with
    | none => .error "IndexError"
    | some d =>
      .ok (updAct s actId (fun a2 => { a2 with depstack := a2.depstack.dropLast }), d)

/-- Mutate the top scope `activation.dependencies[-1]` in place. -/
def updTop (s : State) (actId : Int) (f : DependencyAware → DependencyAware) :
    Except String State :=
  match getAct s actId with
  | none => .error "no activation"
  | some a =>
    match a.depstack.getLast? with
    | none => .error "IndexError"
    | some top =>
      .ok (updAct s actId (fun a2 => { a2 with depstack := a2.depstack.dropLast ++ [f top] }))

/-- `activation.dependencies[-1].add(dep)`. -/
def addToTopScope (s : State) (actId : Int) (depId : Nat) : Except String State :=
  updTop s actId (fun t => { t with dependencies := t.dependencies ++ [depId] })

/-- First Dependency (heap index) in the list whose `value` is the given
runtime object (`dep.value is value`). -/
def firstMatch (s : State) (value : PyObj) : List Nat → Option Nat
  | [] => none
  | k :: rest =>
    match getDep s k with
    | some dep => if dep.value = value then some k else firstMatch s value rest
    | none => firstMatch s value rest

/-- The mode rewrite the bind rule applies to the matched Dependency:
`dependency*` becomes `assign`; a mode already ending in `-bind` stays;
anything else gains the `-bind` suffix. -/
def bindModeRewrite (m : String) : String :=
  if strStartsWith m "dependency" then "assign"
  else if strEndsWith m "-bind" then m
  else m ++ "-bind"

/-- The `for dep in depa.dependencies:` loop of `find_value_id`: find the
first Dependency whose `value` is the given object, rewrite its mode in
place and answer its value id. -/
def bindRewrite (s : State) (value : PyObj) (d : DependencyAware) :
    State × Option Int :=
  match firstMatch s value d.dependencies with
  | none => (s, none)
  | some k =>
    match getDep s k with
    | none => (s, none)
    | some dep => (setDep s k { dep with mode := bindModeRewrite dep.mode }, dep.value_id)

/-- `find_value_id(value, depa, create)`: the bind rule.  If (for mutable
values, or a single-dependency scope) some Dependency in `depa` references
the same runtime object by identity, reuse its value id and rewrite that
Dependency's mode in place; afterwards, when `create` and no (truthy) id was
found, intern a fresh Value. -/
def find_value_id (s : State) (value : PyObj) (depa : Option DependencyAware)
    (create : Bool) : State × Option Int :=
  let step : State × Option Int :=
    match depa with
    | none => (s, none)
    | some d =>
      if (!(isImmutable value)) || d.dependencies.length = 1 then
        bindRewrite s value d
      else (s, none)
  match step with
  | (s1, some vid) => (s1, some vid)
  | (s1, none) =>
    if create then (let p := add_value s1 value; (p.1, some p.2)) else (s1, none)

/-- The rows `create_dependencies` commits for scope `d` under the
evaluation with activation id `aid` and id `eid` (one edge per collected
Dependency, in scope order). -/
def depRows (s : State) (aid eid : Int) (d : DependencyAware) : List DepEdge :=
  d.dependencies.filterMap (fun k =>
    (getDep s k).map (fun dep =>
      { dependent_activation_id := aid,
        dependent_evaluation_id := eid,
        dependency_activation_id := dep.activation_id,
        dependency_evaluation_id := dep.evaluation_id,
        mode := dep.mode }))

/-- `create_dependencies(evaluation, depa)`. -/
def create_dependencies (s : State) (ev : Evaluation) (depa : Option DependencyAware) :
    State :=
  match depa with
  | none => s
  | some d =>
    { s with dependencies := s.dependencies ++ depRows s ev.activation_id ev.id d }

/-- The rows `create_argument_dependencies` commits: one `dependency`-mode
edge per collected dep whose mode starts with `argument`. -/
def argRows (s : State) (aid eid : Int) (d : DependencyAware) : List DepEdge :=
  d.dependencies.filterMap (fun k =>
    (getDep s k).bind (fun dep =>
      if strStartsWith dep.mode "argument" then
        some { dependent_activation_id := aid,
               dependent_evaluation_id := eid,
               dependency_activation_id := dep.activation_id,
               dependency_evaluation_id := dep.evaluation_id,
               mode := "dependency" }
      else none))

/-- `create_argument_dependencies(evaluation, depa)`. -/
def create_argument_dependencies (s : State) (ev : Evaluation) (d : DependencyAware) :
    State :=
  { s with dependencies := s.dependencies ++ argRows s ev.activation_id ev.id d }

/-- `evaluate(activation, code_id, value, moment, depa)`: create an
Evaluation (resolving its Value id through the bind rule) and commit edges
from the collected dependencies. -/
def evaluate (s : State) (activationId : Int) (code_id : Int) (value : PyObj)
    (moment : Option Nat) (depa : Option DependencyAware) : State × Evaluation :=
  let p := match moment with
    | none => time s
    | some m0 => (s, m0)
  let s := p.1
  let q := find_value_id s value depa true
  let s := q.1
  let ev : Evaluation :=
    { id := (s.evaluations.length : Int) + 1,
      code_component_id := code_id, activation_id := activationId,
      moment := some p.2, value_id := q.2 }
  let s := addEvaluationRow s ev
  (create_dependencies s ev depa, ev)

/-- `start_activation(name, code_component_id, definition_id, act)`: a fresh
placeholder Evaluation wrapped in a fresh Activation (sharing its id), with
the closure linked to the parent by default; becomes `last_activation`. -/
def start_activation (s : State) (nm : String) (code_component_id : Int)
    (definition_id : Int) (actId : Int) : State × Int :=
  let ev : Evaluation :=
    { id := (s.evaluations.length : Int) + 1,
      code_component_id := code_component_id, activation_id := actId,
      moment := none, value_id := none }
  let s := addEvaluationRow s ev
  let p := time s
  let act : Activation :=
    { id := ev.id, name := nm, start := some p.2,
      code_block_id := some definition_id, closure := some actId }
  ({ p.1 with activations := p.1.activations ++ [act], last_activation := act.id },
   act.id)

/-- `close_activation(activation, value_id)`: fill the evaluation's moment
and value id and pop `last_activation` back to the activation named by the
evaluation's `activation_id`, falling back to `<now>`. -/
def close_activation (s : State) (actId : Int) (value_id : Option Int) : State :=
  let p := time s
  let s := updEval p.1 actId (fun e => { e with moment := some p.2, value_id := value_id })
  let caller : Int :=
    match getEval s actId with
    | some e =>
      match getAct s e.activation_id with
      | some ca => ca.id
      | none => s.first_activation
    | none => s.first_activation
  { s with last_activation := caller }

/-- `collect_exception(activation)`: `exceptions.add(sys.exc_info(), id)`;
the in-flight exception is carried as the string `e`. -/
def collect_exception (s : State) (e : String) (actId : Int) : State :=
  { s with exceptions := s.exceptions ++ [(e, actId)] }

/-- The `while activation:` walk of `lookup`: the context chain through
closures (acyclic in reachable states; the fuel bounds it). -/
def lookupChain : Nat → State → Option Int → String → Option Int
  | 0, _, _, _ => none
  | _ + 1, _, none, _ => none
  | fuel + 1, s, some actId, nm =>
    match getAct s actId with
    | none => none
    | some a =>
      match lookupStr nm a.context with
      | some evalId => some evalId
      | none => lookupChain fuel s a.closure nm

/-- `lookup(activation, name)`: the context chain, then `global_evaluations`,
then the builtins (materialising and caching a synthetic global
Evaluation). -/
def lookup (s : State) (actId : Int) (nm : String) : State × Option Evaluation :=
  match lookupChain (s.activations.length + 1) s (some actId) nm with
  | some evalId => (s, getEval s evalId)
  | none =>
    match lookupStr nm s.global_evaluations with
    | some evalId => (s, getEval s evalId)
    | none =>
      match lookupStr nm s.globals with
      | none => (s, none)
      | some v =>
        let ccid : Int := (s.code_components : Int) + 1
        let s := { s with code_components := s.code_components + 1 }
        let p := time s
        let q := add_value p.1 v
        let s := q.1
        let ev : Evaluation :=
          { id := (s.evaluations.length : Int) + 1,
            code_component_id := ccid, activation_id := -1,
            moment := some p.2, value_id := some q.2 }
        ({ addEvaluationRow s ev with
            global_evaluations := insertStr nm ev.id s.global_evaluations },
         some ev)

/-- `name(activation, code_tuple, value, mode)`: capture a name value; a
falsy first element of `code_tuple` skips capture entirely and returns the
value unchanged. -/
def name (s : State) (actId : Int) (code_tuple : Option (Int × String))
    (value : PyObj) (mode : String) : Except String (State × PyObj) :=
  match code_tuple with
  | none => .ok (s, value)
  | some (code_id, nm) =>
    let p := lookup s actId nm
    let old_eval := p.2
    let q := match old_eval with
      | some oe => (p.1, oe.value_id)
      | none => (let r := add_value p.1 value; (r.1, some r.2))
    let s := q.1
    let t := time s
    let s := t.1
    let evaluation_id : Int := (s.evaluations.length : Int) + 1
    let s := addEvaluationRow s
      { id := evaluation_id, code_component_id := code_id, activation_id := actId,
        moment := some t.2, value_id := q.2 }
    let r := newDep s
      { activation_id := actId, evaluation_id := evaluation_id,
        value := value, value_id := q.2, mode := mode }
    match addToTopScope r.1 actId r.2 with
    | .error e => .error e
    | .ok s =>
      let s :=
        match old_eval with
        | some oe => { s with dependencies := s.dependencies ++
            [{ dependent_activation_id := actId, dependent_evaluation_id := evaluation_id,
               dependency_activation_id := oe.activation_id,
               dependency_evaluation_id := oe.id, mode := "assignment" }] }
        | none => s
      .ok (s, value)

/-- The after-callable a before-hook returns, identified by name (`tuple`
and `set` return the bound method `_list`, exactly like `list`). -/
inductive HookAfter where
  | op : HookAfter
  | container : HookAfter
  | dict : HookAfter
  | dict_key : HookAfter
  | dict_value : HookAfter
  | list : HookAfter
  | assign_value : HookAfter
deriving DecidableEq

/-- `operation(activation)`: before-hook, pushes a plain scope. -/
def operation (s : State) (actId : Int) : State × HookAfter :=
  (pushScope s actId {}, HookAfter.op)

/-- `_operation(activation, code_id, value, mode)`: pop the scope, evaluate
over it, and place one Dependency in the enclosing scope. -/
def _operation (s : State) (actId : Int) (code_id : Int) (value : PyObj)
    (mode : String) : Except String (State × PyObj) := do
  let (s, depa) ← popScope s actId
  let p := evaluate s actId code_id value none (some depa)
  let q := newDep p.1
    { activation_id := actId, evaluation_id := p.2.id,
      value := value, value_id := p.2.value_id, mode := mode }
  let s ← addToTopScope q.1 actId q.2
  return (s, value)

/-- `container(activation)`: before-hook, pushes a compartment scope. -/
def container (s : State) (actId : Int) : State × HookAfter :=
  (pushScope s actId {}, HookAfter.container)

/-- `_container(activation, code_id, value)`: store the captured value in the
top scope's key slot; the scope is not popped. -/
def _container (s : State) (actId : Int) (_code_id : Int) (value : PyObj) :
    Except String (State × PyObj) := do
  let s ← updTop s actId (fun t => { t with key := some value })
  return (s, value)

/-- `dict(activation)`: before-hook, pushes a collection scope. -/
def dict (s : State) (actId : Int) : State × HookAfter :=
  (pushScope s actId {}, HookAfter.dict)

/-- Key text of a compartment: `"[{0!r}]".format(key)`. -/
def compartmentKey (k : Option PyObj) : String :=
  "[" ++ (match k with | some v => reprPy v | none => "None") ++ "]"

/-- `_dict(activation, code_id, value, mode)`: pop the collection scope,
evaluate over it, emit one Compartment per collected item, and one
`collection`-mode Dependency into the enclosing scope. -/
def _dict (s : State) (actId : Int) (code_id : Int) (value : PyObj)
    (mode : String) : Except String (State × PyObj) := do
  let (s, depa) ← popScope s actId
  let p := evaluate s actId code_id value none (some depa)
  let s := depa.items.foldl (fun s item =>
    { s with compartments := s.compartments ++
      [{ name := compartmentKey (some item.1), moment := item.2.2,
         whole_id := p.2.value_id, part_id := item.2.1 }] }) p.1
  let q := newDep s
    { activation_id := actId, evaluation_id := p.2.id,
      value := value, value_id := p.2.value_id, mode := mode }
  let s ← addToTopScope q.1 actId q.2
  return (s, value)

/-- `dict_key(activation)`: before-hook, pushes a compartment scope. -/
def dict_key (s : State) (actId : Int) : State × HookAfter :=
  (pushScope s actId {}, HookAfter.dict_key)

/-- `_dict_key(activation, code_id, value)`: store the key in the top
scope's key slot; the scope is not popped. -/
def _dict_key (s : State) (actId : Int) (_code_id : Int) (value : PyObj) :
    Except String (State × PyObj) := do
  let s ← updTop s actId (fun t => { t with key := some value })
  return (s, value)

/-- `dict_value(activation)`: before-hook, pushes a plain scope. -/
def dict_value (s : State) (actId : Int) : State × HookAfter :=
  (pushScope s actId {}, HookAfter.dict_value)

/-- `_dict_value(activation, code_id, value)`: pop the value scope and the
compartment (key) scope, merge their dependencies, create the item
Evaluation, wire its dependencies, and push an `item`-mode Dependency plus
the `(key, value_id, moment)` triple into the enclosing collection scope. -/
def _dict_value (s : State) (actId : Int) (code_id : Int) (value : PyObj) :
    Except String (State × PyObj) := do
  let (s, value_da) ← popScope s actId
  let (s, comp_da) ← popScope s actId
  let comp_da := { comp_da with
    dependencies := comp_da.dependencies ++ value_da.dependencies }
  let p := find_value_id s value (some value_da) true
  let t := time p.1
  let s := t.1
  let evaluation : Evaluation :=
    { id := (s.evaluations.length : Int) + 1,
      code_component_id := code_id, activation_id := actId,
      moment := some t.2, value_id := p.2 }
  let s := addEvaluationRow s evaluation
  let s := create_dependencies s evaluation (some comp_da)
  let q := newDep s
    { activation_id := actId, evaluation_id := evaluation.id,
      value := value, value_id := p.2, mode := "item" }
  let s ← updTop q.1 actId (fun top => { top with
    dependencies := top.dependencies ++ [q.2],
    items := top.items ++ [(comp_da.key.getD pyNone, p.2, t.2)] })
  return (s, value)

/-- `list(activation)`: before-hook, pushes a collection scope; its
after-form is `_list`. -/
def list (s : State) (actId : Int) : State × HookAfter :=
  (pushScope s actId {}, HookAfter.list)

/-- `_list(activation, code_id, value, mode)`: like `_dict`, and the emitted
collection Dependency carries the collected deps as `sub_dependencies`. -/
def _list (s : State) (actId : Int) (code_id : Int) (value : PyObj)
    (mode : String) : Except String (State × PyObj) := do
  let (s, depa) ← popScope s actId
  let p := evaluate s actId code_id value none (some depa)
  let s := depa.items.foldl (fun s item =>
    { s with compartments := s.compartments ++
      [{ name := compartmentKey (some item.1), moment := item.2.2,
         whole_id := p.2.value_id, part_id := item.2.1 }] }) p.1
  let q := newDep s
    { activation_id := actId, evaluation_id := p.2.id,
      value := value, value_id := p.2.value_id, mode := mode,
      sub_dependencies := depa.dependencies }
  let s ← addToTopScope q.1 actId q.2
  return (s, value)

/-- `tuple(activation)`: identical to `list` -- pushes a collection scope
and returns the bound method `_list`. -/
def tuple (s : State) (actId : Int) : State × HookAfter :=
  (pushScope s actId {}, HookAfter.list)

/-- `set(activation)`: identical to `list`. -/
def set (s : State) (actId : Int) : State × HookAfter :=
  (pushScope s actId {}, HookAfter.list)

/-- `assign_value(activation)`: before-hook of an assignment's RHS. -/
def assign_value (s : State) (actId : Int) : State × HookAfter :=
  (pushScope s actId {}, HookAfter.assign_value)

/-- `_assign_value(activation, value)`: pop the RHS scope and queue
`Assign(time, value, depa)` on the activation. -/
def _assign_value (s : State) (actId : Int) (value : PyObj) :
    Except String (State × PyObj) := do
  let (s, dependency) ← popScope s actId
  let t := time s
  let s := updAct t.1 actId (fun a => { a with assignments := a.assignments ++
    [{ moment := t.2, value := value, depa := dependency }] })
  return (s, value)

/-- `pop_assign(activation)`. -/
def pop_assign (s : State) (actId : Int) : Except String (State × AssignRec) :=
  match getAct s actId with
  | none => .error "no activation"
  | some a =>
    match a.assignments.getLast? with
    | none => .error "IndexError"
    | some r =>
      .ok (updAct s actId (fun a2 => { a2 with assignments := a2.assignments.dropLast }), r)

/-- `call(activation, code_id, func, mode)`: start the callee activation
(definition id `-1` until a decorated definition overwrites it), push its
first scope, and record the result mode.  The callable itself is not
stored; `_call` receives the host call as `funcRun`. -/
def call (s : State) (actId : Int) (code_id : Int) (funcName : String)
    (mode : String) : State :=
  let p := start_activation s funcName code_id (-1) actId
  let s := pushScope p.1 p.2 {}
  updAct s p.2 (fun a => { a with depedency_type := mode })

/-- The `for depa in activation.dependencies:` loop of `_call`: try the bind
rule (without creation) against each scope, bottom up, until a truthy value
id is found. -/
def callFindValue : State → List DependencyAware → PyObj → State × Option Int
  | s, [], _ => (s, none)
  | s, d :: rest, result =>
    match find_value_id s result (some d) false with
    | (s1, some vid) => (s1, some vid)
    | (s1, none) => callFindValue s1 rest result

/-- `_call(*args, **kwargs)`: run the callable (`funcRun` is the host call,
returning the possibly changed state, and the result or the raised
exception), record the exception if any, and in the guaranteed-cleanup
phase resolve the result's value id, close the activation, and draw the
dependency edges (plus the argument edges when the callee had no known
definition); on normal return append the result Dependency to the enclosing
activation's top scope.  The outer `Except` is a collector failure
(IndexError); the inner one is the user exception, re-raised unchanged. -/
def _call (s : State) (funcRun : State → State × Except String PyObj) :
    Except String (State × Except String PyObj) :=
  let actId := s.last_activation
  let run := funcRun s
  let res := run.2
  let s2 := match res with
    | .error e => collect_exception run.1 e actId
    | .ok _ => run.1
  let result : PyObj := match res with
    | .ok v => v
    | .error _ => pyNone
  match getAct s2 actId with
  | none => .error "no activation"
  | some a =>
    let p := callFindValue s2 a.depstack result
    let q := match p.2 with
      | some v => (p.1, v)
      | none => add_value p.1 result
    let s4 := close_activation q.1 actId (some q.2)
    match getAct s4 actId with
    | none => .error "no activation"
    | some a4 =>
      match a4.depstack.head? with
      | none => .error "IndexError"
      | some depa =>
        match getEval s4 actId with
        | none => .error "no evaluation"
        | some evaluation =>
          let s5 := create_dependencies s4 evaluation (some depa)
          let s6 := if a4.code_block_id = some (-1) then
              create_argument_dependencies s5 evaluation depa
            else s5
          match res with
          | .error e => .ok (s6, .error e)
          | .ok v =>
            let r := add_value s6 v
            let w := newDep r.1
              { activation_id := evaluation.activation_id,
                evaluation_id := evaluation.id, value := v,
                value_id := some r.2, mode := a4.depedency_type }
            match addToTopScope w.1 w.1.last_activation w.2 with
            | .error e => .error e
            | .ok s9 => .ok (s9, .ok v)

/-- Python `len(v)`: only sequence objects carry a length in this model. -/
def pyLen (v : PyObj) : Except String Int :=
  match v with
  | .seq _ _ es => .ok (es.length : Int)
  | _ => .error "TypeError: no len"

/-- Python `v[i]` for a sequence value. -/
def pyIndexObj (v : PyObj) (i : Int) : Except String PyObj :=
  match v with
  | .seq _ _ es => (pyIndex es i).map embedElem
  | _ => .error "TypeError: not subscriptable"

/-- Python `v[a:b]` for a sequence value: allocates a fresh object (fresh
identity drawn from the host allocator). -/
def pySliceObj (s : State) (v : PyObj) (a b : Int) : Except String (State × PyObj) :=
  match v with
  | .seq _ tyname es =>
      .ok ({ s with nextOid := s.nextOid + 1 },
           PyObj.seq s.nextOid tyname (pySlice es a b))
  | _ => .error "TypeError: unsliceable"

/-- Modelled from the spec: `helper.get_compartment(meta, whole_id, addr)`
(module not under `src/`) -- the latest member value id recorded in the
compartments store for the container value at key `addr`. -/
def get_compartment (s : State) (whole_id : Option Int) (addr : String) : Option Int :=
  match whole_id with
  | none => none
  | some w =>
    ((s.compartments.filter (fun c => c.whole_id == some w && c.name == addr)).getLast?).bind
      Compartment.part_id

/-- Modelled from the spec: `helper.last_evaluation_by_value_id` -- "locating
the latest evaluation that produced it": the newest evaluation whose value
id is `part_id`. -/
def last_evaluation_by_value_id (s : State) (part_id : Option Int) : Option Evaluation :=
  match part_id with
  | none => none
  | some p => (s.evaluations.filter (fun e => e.value_id == some p)).getLast?

/-- Modelled from the spec: `depa.clone(mode)` -- "a clone of the aggregate
with mode dependency": fresh Dependency copies (new heap objects) with the
mode replaced. -/
def cloneDepa (s : State) (d : DependencyAware) (mode : String) :
    State × DependencyAware :=
  let step := d.dependencies.foldl (fun (p : State × List Nat) k =>
    match getDep p.1 k with
    | none => p
    | some dep =>
      let q := newDep p.1 { dep with mode := mode }
      (q.1, p.2 ++ [q.2])) (s, [])
  (step.1, { dependencies := step.2 })

/-- The target tree of an assignment, as the transformed code passes it:
`(info, type)` tuples -- `single` is `((code, name, value), "single")`,
`multiple` is `((subcomponents, value), "multiple")` and `starred` wraps its
inner component (`subcomp[0][0]`). -/
inductive Target where
  | single (code : Int) (nm : Option String) (value : PyObj) : Target
  | multiple (subs : List Target) (value : PyObj) : Target
  | starred (inner : Target) (value : PyObj) : Target

mutual

/-- Size of a target tree (bounds the recursion depth of `assign`). -/
def Target.size : Target → Nat
  | .single _ _ _ => 1
  | .multiple subs _ => 1 + Target.sizeList subs
  | .starred inner _ => 1 + inner.size

/-- Size of a list of target trees. -/
def Target.sizeList : List Target → Nat
  | [] => 0
  | t :: ts => t.size + Target.sizeList ts

end

/-- `subcomp[-1] == "starred"`. -/
def Target.isStarred : Target → Bool
  | .starred _ _ => true
  | _ => false

/-- `subcomp[0][-1]`: the last slot of the component's info tuple, its
runtime value. -/
def Target.tvalue : Target → PyObj
  | .single _ _ v => v
  | .multiple _ v => v
  | .starred _ v => v

/-- The RHS dependency argument of `assign`: one scope, or (from the starred
recursion) a list of scopes joined on entry. -/
inductive DepaIn where
  | one (d : DependencyAware) : DepaIn
  | many (l : List DependencyAware) : DepaIn

/-- Which of the three `custom_dependency` closures of `assign` is active. -/
inductive DepSrc where
  | fromList : DepSrc
  | fromProp : DepSrc
  | fromClone : DepSrc
deriving DecidableEq

/-- The `custom_dependency(index)` closure of `assign`: the per-index
dependency source for a multiple target.  `fromList` indexes the
caller-supplied per-element list (an IndexError falls back to the shared
clone); `fromProp` prefers the i-th sub-dependency of the single aggregate
dependency, else derives one from a compartment lookup and the latest
evaluation of the member value, tagging the fresh Dependency `assign`, and
falls back to the shared clone when either lookup is empty; `fromClone`
always answers the shared clone. -/
def custom_dependency (s : State) (src : DepSrc) (ldepa : List DependencyAware)
    (clone_depa : DependencyAware) (aggDep : Option Nat) (assign_value : PyObj)
    (index : Int) : Except String (State × DependencyAware) :=
  match src with
  | .fromList =>
    match pyIndex ldepa index with
    | .ok d => .ok (s, d)
    | .error _ => .ok (s, clone_depa)
  | .fromClone => .ok (s, clone_depa)
  | .fromProp =>
    match aggDep.bind (getDep s) with
    | none => .ok (s, clone_depa)
    | some dep =>
      let branch : Except String (Option Int × Option (Int × Int)) :=
        if (dep.sub_dependencies.length : Int) > index then
          match pyIndex dep.sub_dependencies index with
          | .error e => .error e
          | .ok k =>
            match getDep s k with
            | none => .ok (none, none)
            | some nd => .ok (nd.value_id, some (nd.activation_id, nd.evaluation_id))
        else
          let addr := "[" ++ toString index ++ "]"
          let part_id := get_compartment s dep.value_id addr
          match last_evaluation_by_value_id s part_id with
          | none => .ok (part_id, none)
          | some e2 => .ok (part_id, some (e2.activation_id, e2.id))
      match branch with
      | .error e => .error e
      | .ok (part_id, evref) =>
        match part_id, evref with
        | some pid, some (aid, eid) =>
          match pyIndexObj assign_value index with
          | .error e => .error e
          | .ok val =>
            let q := newDep s
              { activation_id := aid, evaluation_id := eid, value := val,
                value_id := some pid, mode := "assign" }
            .ok (q.1, { dependencies := [q.2] })
        | _, _ => .ok (s, clone_depa)

/-- Fuel-indexed `assign(activation, assign, code_component_tuple)`: the
fuel bounds the recursion depth over the target tree (`assign` below always
supplies enough).  Python's `assign` returns 1 for a single target and
falls off the end (returning `None`, here `none`) for a multiple one; the
accumulations `delta += ...` and `rdelta -= ...` raise a `TypeError` when
the recursive call returned `None`, which the `Except` carries.  Python's
loop that breaks at the first starred component is rendered by locating the
starred index first and folding over the prefix; the state effects are
identical. -/
def assign_fuel : Nat → State → Int → Nat × PyObj × DepaIn → Target →
    Except String (State × Option Int)
  | 0, _, _, _, _ => .error "RecursionError"
  | fuel + 1, s, actId, (moment, assign_value, depaIn), tgt =>
    let ldepa : List DependencyAware :=
      match depaIn with
      | .one _ => []
      | .many l => l
    let depa : DependencyAware :=
      match depaIn with
      | .one d => d
      | .many l => DependencyAware.join l
    match tgt with
    | .single code nm value =>
      let p := evaluate s actId code value (some moment) (some depa)
      let s := match nm with
        | some n =>
          updAct p.1 actId (fun a => { a with context := insertStr n p.2.id a.context })
        | none => p.1
      .ok (s, some 1)
    | .starred _ _ => .ok (s, none)
    | .multiple subs tvalue =>
      let propagate : Bool :=
        match depa.dependencies with
        | [k] => (match getDep s k with
                  | some dep => strStartsWith dep.mode "assign"
                  | none => false) && isiterable tvalue
        | _ => false
      let cl := cloneDepa s depa "dependency"
      let s := cl.1
      let clone_depa := cl.2
      let src : DepSrc :=
        if ldepa ≠ [] then .fromList
        else if propagate then .fromProp
        else .fromClone
      let aggDep := depa.dependencies.head?
      let starredIdx : Option Nat := subs.findIdx? Target.isStarred
      let leftCount : Nat :=
        match starredIdx with
        | some i => i
        | none => subs.length
      let leftStep := fun (acc : Except String (State × Int)) (p : Nat × Target) =>
        match acc with
        | .error e => .error e
        | .ok (s, delta) =>
          match custom_dependency s src ldepa clone_depa aggDep assign_value (p.1 : Int) with
          | .error e => .error e
          | .ok (s, adepa) =>
            match assign_fuel fuel s actId (moment, p.2.tvalue, DepaIn.one adepa) p.2 with
            | .error e => .error e
            | .ok (s, some w0) => .ok (s, delta + w0)
            | .ok (_, none) => .error "TypeError: unsupported operand"
      match ((List.range leftCount).zip (subs.take leftCount)).foldl leftStep (.ok (s, 0)) with
      | .error e => .error e
      | .ok (s, delta) =>
        match starredIdx with
        | none => .ok (s, none)
        | some starred =>
          let star : Target :=
            match subs.get? starred with
            | some (.starred inner _) => inner
            | _ => Target.single (-1) none PyObj.pytype
          match pyLen assign_value with
          | .error e => .error e
          | .ok alen =>
            let idxs := (List.range (subs.length - starred - 1)).map
              (fun j => subs.length - 1 - j)
            let rightStep := fun (acc : Except String (State × Int)) (i : Nat) =>
              match acc with
              | .error e => .error e
              | .ok (s, rdelta) =>
                match subs.get? i with
                | none => .error "IndexError"
                | some subcomp =>
                  let new_index : Int := alen + rdelta
                  match custom_dependency s src ldepa clone_depa aggDep assign_value new_index with
                  | .error e => .error e
                  | .ok (s, adepa) =>
                    match assign_fuel fuel s actId (moment, subcomp.tvalue, DepaIn.one adepa) subcomp with
                    | .error e => .error e
                    | .ok (s, some w0) => .ok (s, rdelta - w0)
                    | .ok (_, none) => .error "TypeError: unsupported operand"
            match idxs.foldl rightStep (.ok (s, -1)) with
            | .error e => .error e
            | .ok (s, rdelta) =>
              match pySliceObj s assign_value delta (rdelta + 1) with
              | .error e => .error e
              | .ok (s, new_value) =>
                let count : Nat := (alen + rdelta + 1 - delta).toNat
                let depasStep := fun (acc : Except String (State × List DependencyAware)) (j : Nat) =>
                  match acc with
                  | .error e => .error e
                  | .ok (s, ds) =>
                    match custom_dependency s src ldepa clone_depa aggDep assign_value (delta + (j : Int)) with
                    | .error e => .error e
                    | .ok (s, d) => .ok (s, ds ++ [d])
                match (List.range count).foldl depasStep (.ok (s, [])) with
                | .error e => .error e
                | .ok (s, depas) =>
                  match assign_fuel fuel s actId (moment, new_value, DepaIn.many depas) star with
                  | .error e => .error e
                  | .ok (s, _) => .ok (s, none)

/-- `assign(activation, assign, code_component_tuple)`, with enough fuel for
the whole target tree. -/
def assign (s : State) (actId : Int) (a : Nat × PyObj × DepaIn) (tgt : Target) :
    Except String (State × Option Int) :=
  assign_fuel (tgt.size + 1) s actId a tgt

end Collector

/-! ### Supporting lemmas -/

open Collector

theorem lookupST_insertST_self (k : PyObj) (v : Int) (l : List (PyObj × Int)) :
    lookupST k (insertST k v l) = some v := by
  induction l with
  | nil => simp [insertST, lookupST]
  | cons p rest ih =>
    by_cases h : p.1 = k
    · simp [insertST, h, lookupST]
    · cases p with
      | mk a b =>
        simp only at h
        simp [insertST, h, lookupST, ih]

/-- The first `add_value` call leaves the shared type id of `v`'s type
cached, appends exactly one Value record (whose `type_id` is that cached
id), and returns its id. -/
theorem add_value_step (s : State) (v : PyObj) (h : v ≠ PyObj.pytype) :
    ∃ s1 : State, ∃ tid : Int,
      lookupST v.typeOf s1.shared_types = some tid ∧
      add_value s v =
        ({ s1 with values := s1.values ++
            [{ id := (s1.values.length : Int) + 1, rep := reprPy v, type_id := tid }] },
         (s1.values.length : Int) + 1) := by
  have hd : v.depth = (v.depth - 1) + 1 := by
    cases v with
    | pytype => exact absurd rfl h
    | cls n m => simp [PyObj.depth]
    | obj o t r => simp [PyObj.depth]
    | seq o t es => simp [PyObj.depth]
  rw [add_value, add_value_fuel]
  rw [if_neg h]
  cases hst : lookupST v.typeOf s.shared_types with
  | some x =>
    refine ⟨s, x, hst, ?_⟩
    simp [hst]
  | none =>
    set p := add_value_fuel (v.depth) s v.typeOf with hp
    refine ⟨{ p.1 with shared_types := insertST v.typeOf p.2 p.1.shared_types }, p.2, ?_, ?_⟩
    · simp [lookupST_insertST_self]
    · simp [hst, lookupST_insertST_self]

/-- The second `add_value` call on the same (non-`type`) object hits the
cached branch: it appends exactly one further Value record with the same
`type_id` and returns a fresh id. -/
theorem add_value_again (s : State) (v : PyObj) (h : v ≠ PyObj.pytype) :
    (add_value (add_value s v).1 v).1.values =
      (add_value s v).1.values ++
        [{ id := ((add_value s v).1.values.length : Int) + 1, rep := reprPy v,
           type_id := ((add_value s v).1.values.getLast?.map Value.type_id).getD 0 }] ∧
    (add_value (add_value s v).1 v).2 = ((add_value s v).1.values.length : Int) + 1 := by
  obtain ⟨s1, tid, hlk, heq⟩ := add_value_step s v h
  rw [heq]
  rw [add_value, add_value_fuel]
  rw [if_neg h]
  simp [hlk, List.getLast?_append]

theorem getAct_updAct_self (s : State) (i : Int) (f : Activation → Activation)
    (hf : ∀ a, (f a).id = a.id) :
    getAct (updAct s i f) i = (getAct s i).map f := by
  unfold getAct updAct
  simp only
  induction s.activations with
  | nil => rfl
  | cons a rest ih =>
    by_cases h : (a.id == i) = true
    · have hfa : ((f a).id == i) = true := by rw [hf a]; exact h
      rw [List.map_cons,
          show (if (a.id == i) = true then f a else a) = f a from by simp [h]]
      simp only [List.find?_cons, hfa, h]
      rfl
    · have h2 : (a.id == i) = false := by simpa using h
      rw [List.map_cons,
          show (if (a.id == i) = true then f a else a) = a from by simp [h2]]
      simp only [List.find?_cons, h2]
      exact ih

/-- `add_value_fuel` only touches the values buffer and the shared-types
cache. -/
theorem add_value_fuel_shape (f : Nat) (v : PyObj) (s : State) :
    ∃ vals st, (add_value_fuel f s v).1
      = { s with values := vals, shared_types := st } := by
  induction f generalizing s v with
  | zero => exact ⟨s.values, s.shared_types, rfl⟩
  | succ n ih =>
    rw [add_value_fuel]
    by_cases h : v = PyObj.pytype
    · rw [if_pos h]
      exact ⟨_, _, rfl⟩
    · rw [if_neg h]
      cases hst : lookupST v.typeOf s.shared_types with
      | some x =>
        simp only [hst]
        exact ⟨_, _, rfl⟩
      | none =>
        simp only [hst]
        obtain ⟨A, B, hAB⟩ := ih v.typeOf s
        rw [hAB]
        exact ⟨_, _, rfl⟩

/-- `add_value` only touches the values buffer and the shared-types cache. -/
theorem add_value_shape (s : State) (v : PyObj) :
    ∃ vals st, (add_value s v).1
      = { s with values := vals, shared_types := st } :=
  add_value_fuel_shape (v.depth + 1) v s

/-- `bindRewrite` only touches the Dependency heap, and only when it finds a
match. -/
theorem bindRewrite_shape (s : State) (v : PyObj) (d : DependencyAware) :
    ∃ h0 vid0, bindRewrite s v d = ({ s with depHeap := h0 }, vid0) := by
  unfold bindRewrite
  cases hfm : firstMatch s v d.dependencies with
  | none => exact ⟨s.depHeap, none, rfl⟩
  | some k =>
    dsimp only
    cases hdep : getDep s k with
    | none => exact ⟨s.depHeap, none, rfl⟩
    | some dep => exact ⟨_, _, rfl⟩

/-- `find_value_id` only touches the values buffer, the shared-types cache
and the Dependency heap. -/
theorem find_value_id_shape (s : State) (v : PyObj)
    (depa : Option DependencyAware) (c : Bool) :
    ∃ vals st heap, (find_value_id s v depa c).1
      = { s with values := vals, shared_types := st, depHeap := heap } := by
  unfold find_value_id
  have hcreate : ∀ h0 : List Dependency,
      ∃ vals st heap,
        (if c then
          (let p := add_value { s with depHeap := h0 } v; (p.1, some p.2))
         else ({ s with depHeap := h0 }, none)).1
          = { s with values := vals, shared_types := st, depHeap := heap } := by
    intro h0
    cases c with
    | false => exact ⟨_, _, _, rfl⟩
    | true =>
      obtain ⟨A, B, hAB⟩ := add_value_shape { s with depHeap := h0 } v
      simp only [hAB]
      exact ⟨_, _, _, rfl⟩
  rcases depa with _ | d
  · dsimp only
    simpa using hcreate s.depHeap
  · dsimp only
    by_cases hcond : ((!(isImmutable v)) || d.dependencies.length = 1) = true
    · rw [if_pos hcond]
      obtain ⟨h0, vid0, hbr⟩ := bindRewrite_shape s v d
      rw [hbr]
      cases vid0 with
      | some vid => exact ⟨_, _, _, rfl⟩
      | none =>
        dsimp only
        exact hcreate h0
    · rw [if_neg hcond]
      dsimp only
      simpa using hcreate s.depHeap

/-- `time` only advances the clock. -/
theorem time_shape (s : State) : (time s).1 = { s with clock := s.clock + 1 } := rfl

/-- `create_dependencies` only appends dependency rows. -/
theorem create_dependencies_shape (s : State) (ev : Evaluation)
    (depa : Option DependencyAware) :
    ∃ rows, (create_dependencies s ev depa) = { s with dependencies := rows } := by
  rcases depa with _ | d
  · exact ⟨s.dependencies, rfl⟩
  · exact ⟨_, rfl⟩

/-- `evaluate` leaves the activation store, the compartments, the
exceptions, the globals and the activation pointers untouched. -/
theorem evaluate_shape (s : State) (aid code : Int) (v : PyObj)
    (m : Option Nat) (depa : Option DependencyAware) :
    ∃ vals st heap evs rows ck, (evaluate s aid code v m depa).1
      = { s with values := vals, shared_types := st, depHeap := heap,
                 evaluations := evs, dependencies := rows, clock := ck } := by
  unfold evaluate
  rcases m with _ | m0 <;>
  · simp only [time_shape]
    obtain ⟨A, B, H, hfvi⟩ := find_value_id_shape _ v depa true
    rw [hfvi]
    obtain ⟨rows, hcd⟩ := create_dependencies_shape _ _ depa
    rw [hcd]
    exact ⟨_, _, _, _, _, _, rfl⟩

/-! ### C2 -/

/-- Runtime object used in concrete runs: the int `5`. -/
def vInt5 : PyObj := PyObj.obj 7 (PyObj.cls "int" PyObj.pytype) "5"

/-- C2 counterexample: `add_value` called twice on the identical runtime
object returns two different Value ids and inserts a second Value record
(the claimed per-object interning does not happen; only types reached
through the recursive type lookup are cached). -/
theorem C2_counterexample :
    (let r1 := add_value (State.init []) vInt5
     let r2 := add_value r1.1 vInt5
     r1.2 ≠ r2.2 ∧ r2.1.values.length = r1.1.values.length + 1) := by decide

/-- C2 amended: `add_value` creates a fresh Value record on every call, even
for the identical runtime object -- the two calls return distinct ids and
the second call appends exactly one record; only the type chain is shared:
the second record carries the same `type_id` as the first (the type Value is
interned once, via `shared_types`). -/
theorem C2_amended_fresh_value_per_call (s : State) (v : PyObj)
    (h : v ≠ PyObj.pytype) :
    (add_value (add_value s v).1 v).2 ≠ (add_value s v).2 ∧
    (add_value (add_value s v).1 v).1.values.length
      = (add_value s v).1.values.length + 1 ∧
    ((add_value (add_value s v).1 v).1.values.getLast?.map Value.type_id)
      = ((add_value s v).1.values.getLast?.map Value.type_id) := by
  obtain ⟨hvals, hid⟩ := add_value_again s v h
  obtain ⟨s1, tid, hlk, heq⟩ := add_value_step s v h
  refine ⟨?_, ?_, ?_⟩
  · rw [hid, heq]
    simp
  · rw [hvals]
    simp
  · rw [hvals, heq]
    simp [List.getLast?_append]

/-- Witness for the amended C2 theorem at the concrete object `5`. -/
theorem C2_amended_witness :
    (add_value (add_value (State.init []) vInt5).1 vInt5).2
        ≠ (add_value (State.init []) vInt5).2 ∧
    (add_value (add_value (State.init []) vInt5).1 vInt5).1.values.length
        = (add_value (State.init []) vInt5).1.values.length + 1 ∧
    ((add_value (add_value (State.init []) vInt5).1 vInt5).1.values.getLast?.map Value.type_id)
        = ((add_value (State.init []) vInt5).1.values.getLast?.map Value.type_id) :=
  C2_amended_fresh_value_per_call (State.init []) vInt5 (by decide)

/-! ### C9 -/

/-- C9: the `tuple` and `set` before-hooks are the same function as the
`list` before-hook -- each pushes a collection scope and returns the
after-callable `_list` -- so recording a tuple, set or list literal is one
and the same state transformation. -/
theorem C9_tuple_set_eq_list :
    Collector.tuple = Collector.list ∧ Collector.set = Collector.list :=
  ⟨rfl, rfl⟩

/-! ### C10 -/

/-- C10: the `name` hook with a falsy code tuple returns the value unchanged
and has no effect at all on the state (no Value, Evaluation or Dependency
record, no context or scope change). -/
theorem C10_name_falsy_noop (s : State) (actId : Int) (value : PyObj)
    (mode : String) :
    Collector.name s actId none value mode = Except.ok (s, value) := rfl

/-! ### C3 -/

theorem getAct_fields (s : State) (vals : List Value) (st : List (PyObj × Int))
    (heap : List Dependency) (evs : List Evaluation) (rows : List DepEdge)
    (ck : Nat) (i : Int) :
    getAct { s with values := vals, shared_types := st, depHeap := heap,
                    evaluations := evs, dependencies := rows, clock := ck } i
      = getAct s i := rfl

theorem getAct_pushScope (s : State) (i : Int) (d : DependencyAware) :
    getAct (pushScope s i d) i
      = (getAct s i).map (fun a => { a with depstack := a.depstack ++ [d] }) :=
  getAct_updAct_self s i _ (fun _ => rfl)

theorem getAct_dropLastUpd (s : State) (i : Int) :
    getAct (updAct s i (fun a2 => { a2 with depstack := a2.depstack.dropLast })) i
      = (getAct s i).map (fun a2 => { a2 with depstack := a2.depstack.dropLast }) :=
  getAct_updAct_self s i _ (fun _ => rfl)

theorem getAct_topUpd (s : State) (i : Int) (D : DependencyAware) :
    getAct (updAct s i
        (fun a2 => { a2 with depstack := a2.depstack.dropLast ++ [D] })) i
      = (getAct s i).map
          (fun a2 => { a2 with depstack := a2.depstack.dropLast ++ [D] }) :=
  getAct_updAct_self s i _ (fun _ => rfl)

/-- Popping right after a push returns the pushed scope and restores the
stack. -/
theorem popScope_push (s : State) (actId : Int) (a : Activation)
    (d : DependencyAware) (ha : getAct s actId = some a) :
    popScope (pushScope s actId d) actId
      = Except.ok (updAct (pushScope s actId d) actId
          (fun a2 => { a2 with depstack := a2.depstack.dropLast }), d) := by
  unfold popScope
  rw [getAct_pushScope, ha]
  simp

theorem getAct_after_pushpop (s : State) (actId : Int) (a : Activation)
    (d : DependencyAware) (ha : getAct s actId = some a) :
    getAct (updAct (pushScope s actId d) actId
      (fun a2 => { a2 with depstack := a2.depstack.dropLast })) actId = some a := by
  rw [getAct_dropLastUpd, getAct_pushScope, ha]
  simp

/-- `updTop` on a stack ending in `K` rewrites that top scope in place. -/
theorem updTop_concat (s : State) (actId : Int) (a : Activation)
    (L : List DependencyAware) (K : DependencyAware)
    (f : DependencyAware → DependencyAware)
    (ha : getAct s actId = some a) (hstack : a.depstack = L ++ [K]) :
    updTop s actId f = Except.ok (updAct s actId
      (fun a2 => { a2 with depstack := a2.depstack.dropLast ++ [f K] })) := by
  unfold updTop
  rw [ha]
  dsimp only
  rw [hstack]
  simp

theorem getAct_time (s : State) (i : Int) : getAct (time s).1 i = getAct s i := rfl

theorem getAct_newDep (s : State) (d : Dependency) (i : Int) :
    getAct (newDep s d).1 i = getAct s i := rfl

theorem getAct_addEvaluationRow (s : State) (ev : Evaluation) (i : Int) :
    getAct (addEvaluationRow s ev) i = getAct s i := rfl

theorem getAct_collect_exception (s : State) (e : String) (j i : Int) :
    getAct (collect_exception s e j) i = getAct s i := rfl

theorem getAct_setDep (s : State) (k : Nat) (d : Dependency) (i : Int) :
    getAct (setDep s k d) i = getAct s i := rfl

theorem getAct_create_dependencies (s : State) (ev : Evaluation)
    (depa : Option DependencyAware) (i : Int) :
    getAct (create_dependencies s ev depa) i = getAct s i := by
  cases depa <;> rfl

theorem getAct_create_argument_dependencies (s : State) (ev : Evaluation)
    (d : DependencyAware) (i : Int) :
    getAct (create_argument_dependencies s ev d) i = getAct s i := rfl

theorem getAct_add_value (s : State) (v : PyObj) (i : Int) :
    getAct (add_value s v).1 i = getAct s i := by
  obtain ⟨A, B, h⟩ := add_value_shape s v
  rw [h]
  rfl

theorem getAct_find_value_id (s : State) (v : PyObj)
    (depa : Option DependencyAware) (c : Bool) (i : Int) :
    getAct (find_value_id s v depa c).1 i = getAct s i := by
  obtain ⟨A, B, H, h⟩ := find_value_id_shape s v depa c
  rw [h]
  rfl

theorem getAct_evaluate (s : State) (aid code : Int) (v : PyObj)
    (m : Option Nat) (depa : Option DependencyAware) (i : Int) :
    getAct (evaluate s aid code v m depa).1 i = getAct s i := by
  obtain ⟨A, B, H, E, R, C, h⟩ := evaluate_shape s aid code v m depa
  rw [h]
  rfl

/-- C3 amended, first half: `operation` / `_operation` conserve the scope
stack height. -/
theorem C3_operation_pair_conserves (s : State) (actId : Int) (a : Activation)
    (code1 : Int) (v : PyObj) (mode : String)
    (ha : getAct s actId = some a) (hne : a.depstack ≠ []) :
    ∃ s1 : State,
      Collector._operation (Collector.operation s actId).1 actId code1 v mode
        = Except.ok (s1, v) ∧
      (getAct s1 actId).map (fun x => x.depstack.length)
        = some a.depstack.length := by
  have hLK : a.depstack = a.depstack.dropLast ++ [a.depstack.getLast hne] :=
    (List.dropLast_append_getLast hne).symm
  unfold Collector.operation Collector._operation
  rw [popScope_push s actId a {} ha]
  simp only [Except.pure, Except.instMonad, Except.bind]
  set s0 : State := updAct (pushScope s actId {}) actId
    (fun a2 => { a2 with depstack := a2.depstack.dropLast }) with hs0
  have hact0 : getAct s0 actId = some a := getAct_after_pushpop s actId a {} ha
  unfold addToTopScope
  rw [updTop_concat _ actId a a.depstack.dropLast (a.depstack.getLast hne) _
        (by rw [getAct_newDep, getAct_evaluate]; exact hact0) hLK]
  simp only [Except.pure, Except.instMonad, Except.bind]
  refine ⟨_, rfl, ?_⟩
  rw [getAct_topUpd, getAct_newDep, getAct_evaluate, hact0]
  have hlen : 0 < a.depstack.length := List.length_pos.mpr hne
  simp [List.length_dropLast]
  omega

/-- C3 amended, second half: the composite
`dict_key; _dict_key; dict_value; _dict_value` conserves the scope stack
height (the compartment scope left by `_dict_key` is consumed by
`_dict_value`, which pops two scopes). -/
theorem C3_dict_key_value_conserves (s : State) (actId : Int) (a : Activation)
    (code2 code3 : Int) (k v : PyObj)
    (ha : getAct s actId = some a) (hne : a.depstack ≠ []) :
    ∃ s2 : State,
      ((Collector._dict_key (Collector.dict_key s actId).1 actId code2 k).bind (fun p =>
         Collector._dict_value (Collector.dict_value p.1 actId).1 actId code3 v))
        = Except.ok (s2, v) ∧
      (getAct s2 actId).map (fun x => x.depstack.length)
        = some a.depstack.length := by
  have hLK : a.depstack = a.depstack.dropLast ++ [a.depstack.getLast hne] :=
    (List.dropLast_append_getLast hne).symm
  unfold Collector.dict_key Collector._dict_key
  have hact1 : getAct (pushScope s actId ({} : DependencyAware)) actId
      = some { a with depstack := a.depstack ++ [{}] } := by
    rw [getAct_pushScope, ha]
    rfl
  rw [updTop_concat _ actId _ a.depstack {} _ hact1 rfl]
  simp only [Except.pure, Except.instMonad, Except.bind]
  set sK : State := updAct (pushScope s actId {}) actId
    (fun a2 =>
      { a2 with depstack :=
          a2.depstack.dropLast ++ [{ ({} : DependencyAware) with key := some k }] })
    with hsK
  have hactK : getAct sK actId
      = some { a with depstack := a.depstack ++ [{ dependencies := [], items := [],
                                                   key := some k }] } := by
    rw [hsK, getAct_topUpd, getAct_pushScope, ha]
    simp
  unfold Collector.dict_value Collector._dict_value
  rw [popScope_push sK actId _ {} hactK]
  simp only [Except.pure, Except.instMonad, Except.bind]
  set sV : State := updAct (pushScope sK actId {}) actId
    (fun a2 => { a2 with depstack := a2.depstack.dropLast }) with hsV
  have hactV : getAct sV actId
      = some { a with depstack := a.depstack ++ [{ dependencies := [], items := [],
                                                   key := some k }] } :=
    getAct_after_pushpop sK actId _ {} hactK
  have hpop2 : popScope sV actId = Except.ok (updAct sV actId
      (fun a2 => { a2 with depstack := a2.depstack.dropLast }),
      { dependencies := [], items := [], key := some k }) := by
    unfold popScope
    rw [hactV]
    simp
  rw [hpop2]
  simp only [Except.pure, Except.instMonad, Except.bind]
  set sW : State := updAct sV actId
    (fun a2 => { a2 with depstack := a2.depstack.dropLast }) with hsW
  have hactW : getAct sW actId = some a := by
    rw [hsW, getAct_dropLastUpd, hactV]
    simp
  rw [updTop_concat _ actId a a.depstack.dropLast (a.depstack.getLast hne) _
        (by
          rw [getAct_newDep, getAct_create_dependencies, getAct_addEvaluationRow,
              getAct_time, getAct_find_value_id]
          exact hactW) hLK]
  simp only [Except.pure, Except.instMonad, Except.bind]
  refine ⟨_, rfl, ?_⟩
  rw [getAct_topUpd, getAct_newDep, getAct_create_dependencies,
      getAct_addEvaluationRow, getAct_time, getAct_find_value_id, hactW]
  have hlen : 0 < a.depstack.length := List.length_pos.mpr hne
  simp [List.length_dropLast]
  omega

/-- C3 amended: most before/after pairs conserve the activation's scope
stack (here: `operation`/`_operation`), but `container` and `dict_key` do
not pop at their after-form -- the pushed compartment scope stays until a
later hook consumes it; conservation holds for the complete composite
capture (`dict_key; _dict_key; dict_value; _dict_value` pops both pushed
scopes), not at `_dict_key` (or `_container`) return. -/
theorem C3_amended_scope_conservation (s : State) (actId : Int) (a : Activation)
    (code1 code2 code3 : Int) (v k : PyObj) (mode : String)
    (ha : getAct s actId = some a) (hne : a.depstack ≠ []) :
    (∃ s1 : State,
       Collector._operation (Collector.operation s actId).1 actId code1 v mode
         = Except.ok (s1, v) ∧
       (getAct s1 actId).map (fun x => x.depstack.length)
         = some a.depstack.length) ∧
    (∃ s2 : State,
       ((Collector._dict_key (Collector.dict_key s actId).1 actId code2 k).bind (fun p =>
          Collector._dict_value (Collector.dict_value p.1 actId).1 actId code3 v))
         = Except.ok (s2, v) ∧
       (getAct s2 actId).map (fun x => x.depstack.length)
         = some a.depstack.length) :=
  ⟨C3_operation_pair_conserves s actId a code1 v mode ha hne,
   C3_dict_key_value_conserves s actId a code2 code3 k v ha hne⟩

/-- A one-activation state whose scope stack already holds one scope. -/
def c3WitnessState : State :=
  { State.init [] with activations :=
      [{ id := 1, name := "<now>", start := none, code_block_id := none,
         depstack := [{}] }] }

/-- Witness for the amended C3 theorem at a concrete state. -/
theorem C3_amended_witness :
    (∃ s1 : State,
       Collector._operation (Collector.operation c3WitnessState 1).1 1 7 pyNone "dependency"
         = Except.ok (s1, pyNone) ∧
       (getAct s1 1).map (fun x => x.depstack.length) = some 1) ∧
    (∃ s2 : State,
       ((Collector._dict_key (Collector.dict_key c3WitnessState 1).1 1 8 vInt5).bind (fun p =>
          Collector._dict_value (Collector.dict_value p.1 1).1 1 9 pyNone))
         = Except.ok (s2, pyNone) ∧
       (getAct s2 1).map (fun x => x.depstack.length) = some 1) :=
  C3_amended_scope_conservation c3WitnessState 1
    { id := 1, name := "<now>", start := none, code_block_id := none, depstack := [{}] }
    7 8 9 pyNone vInt5 "dependency" (by decide) (by decide)

/-- C3 counterexample: the `dict_key` before-hook pushes a scope but its
after-form `_dict_key` does not pop it -- starting from the initial state
(scope stack of activation 1 empty), running the pair leaves the stack at
height 1, not 0, so the claimed per-pair conservation fails at the very
pairs the claim names. -/
theorem C3_counterexample :
    ((getAct (State.init []) 1).map (fun a => a.depstack.length) = some 0) ∧
    ((Collector._dict_key (Collector.dict_key (State.init []) 1).1 1 5 pyNone).toOption.map
        (fun p => (getAct p.1 1).map (fun a => a.depstack.length))
      = some (some 1)) := by decide

/-! ### C8 -/

/-- One step of transitive type lookup: follow a Value's `type_id` (identity
on missing ids). -/
def typeStep (s : State) (i : Int) : Int :=
  match s.values.find? (fun v => v.id == i) with
  | some v => v.type_id
  | none => i

/-- Whether id `i` names a self-typed Value (the `type` root's encoding:
`type_id` is its own id). -/
def isSelfTypedB (s : State) (i : Int) : Bool :=
  match s.values.find? (fun v => v.id == i) with
  | some v => v.type_id == i
  | none => false

/-- States reachable by interning values from a fresh collector (Value
records and the shared-types cache are written only by `add_value`). -/
inductive Reachable : State → Prop where
  | init (g : List (String × PyObj)) : Reachable (State.init g)
  | step (s : State) (v : PyObj) : Reachable s → Reachable (add_value s v).1

/-- The values buffer, starting at id `k`: ids are consecutive and every
`type_id` points at an earlier (or the same) existing id. -/
def ValuesOkFrom : Int → List Value → Prop
  | _, [] => True
  | k, v :: rest =>
      v.id = k ∧ 1 ≤ v.type_id ∧ v.type_id ≤ k ∧ ValuesOkFrom (k + 1) rest

/-- The C8 invariant: well-formed values buffer, and every cached shared
type id names an existing Value. -/
def InvS (s : State) : Prop :=
  ValuesOkFrom 1 s.values ∧
  ∀ p ∈ s.shared_types, 1 ≤ p.2 ∧ p.2 ≤ (s.values.length : Int)

theorem valuesOkFrom_append (k : Int) (l : List Value) (w : Value)
    (hl : ValuesOkFrom k l) (hw1 : w.id = k + l.length)
    (hw2 : 1 ≤ w.type_id) (hw3 : w.type_id ≤ k + l.length) :
    ValuesOkFrom k (l ++ [w]) := by
  induction l generalizing k with
  | nil =>
    refine ⟨?_, hw2, ?_, trivial⟩
    · simpa using hw1
    · simpa using hw3
  | cons v rest ih =>
    obtain ⟨h1, h2, h3, h4⟩ := hl
    refine ⟨h1, h2, h3, ih (k + 1) h4 ?_ ?_⟩
    · rw [hw1]; simp only [List.length_cons]; push_cast; ring
    · calc w.type_id ≤ k + (v :: rest).length := hw3
        _ = (k + 1) + rest.length := by
          simp only [List.length_cons]; push_cast; ring

theorem valuesOkFrom_find (k : Int) (l : List Value) (i : Int)
    (hl : ValuesOkFrom k l) (h1 : k ≤ i) (h2 : i < k + l.length) :
    ∃ v, l.find? (fun v => v.id == i) = some v ∧ v.id = i ∧
      1 ≤ v.type_id ∧ v.type_id ≤ i := by
  induction l generalizing k with
  | nil => simp at h2; omega
  | cons v rest ih =>
    obtain ⟨hv, hv1, hv2, hrest⟩ := hl
    by_cases hik : i = k
    · refine ⟨v, ?_, by omega, hv1, by omega⟩
      have : (v.id == i) = true := by simp [hv, hik]
      simp [List.find?, this]
    · have hk1 : k + 1 ≤ i := by omega
      have hk2 : i < (k + 1) + rest.length := by
        simp only [List.length_cons] at h2
        push_cast at h2 ⊢; omega
      obtain ⟨w, hwf, hwa, hwb, hwc⟩ := ih (k + 1) hrest hk1 hk2
      refine ⟨w, ?_, hwa, hwb, hwc⟩
      have : (v.id == i) = false := by simp [hv]; omega
      simp [List.find?, this, hwf]

theorem valuesOkFrom_mem (k : Int) (l : List Value) (v : Value)
    (hl : ValuesOkFrom k l) (hv : v ∈ l) :
    k ≤ v.id ∧ v.id < k + l.length := by
  induction l generalizing k with
  | nil => cases hv
  | cons w rest ih =>
    obtain ⟨h1, _, _, h4⟩ := hl
    rcases List.mem_cons.mp hv with rfl | hmem
    · constructor
      · omega
      · simp only [List.length_cons]; push_cast; omega
    · obtain ⟨ha, hb⟩ := ih (k + 1) h4 hmem
      constructor
      · omega
      · simp only [List.length_cons] at hb ⊢
        push_cast at hb ⊢; omega

theorem insertST_mem (k : PyObj) (x : Int) (l : List (PyObj × Int))
    (p : PyObj × Int) (hp : p ∈ insertST k x l) : p ∈ l ∨ p = (k, x) := by
  induction l with
  | nil => simpa [insertST] using hp
  | cons q rest ih =>
    by_cases h : q.1 = k
    · rcases q with ⟨a, b⟩
      simp only at h
      rw [insertST, if_pos h] at hp
      rcases List.mem_cons.mp hp with rfl | hmem
      · right; rfl
      · left; exact List.mem_cons_of_mem _ hmem
    · rcases q with ⟨a, b⟩
      simp only at h
      rw [insertST, if_neg h] at hp
      rcases List.mem_cons.mp hp with rfl | hmem
      · left; exact List.mem_cons_self _ _
      · rcases ih hmem with h2 | h2
        · left; exact List.mem_cons_of_mem _ h2
        · right; exact h2

theorem lookupST_mem (k : PyObj) (l : List (PyObj × Int)) (x : Int)
    (h : lookupST k l = some x) : (k, x) ∈ l := by
  induction l with
  | nil => simp [lookupST] at h
  | cons q rest ih =>
    rcases q with ⟨a, b⟩
    rw [lookupST] at h
    by_cases hq : a = k
    · rw [if_pos hq] at h
      obtain rfl := Option.some.inj h
      subst hq
      exact List.mem_cons_self _ _
    · rw [if_neg hq] at h
      exact List.mem_cons_of_mem _ (ih h)

/-- `add_value_fuel` preserves the C8 invariant, returns an id naming the
last Value of the grown buffer, and only grows the buffer. -/
theorem add_value_fuel_inv (f : Nat) (v : PyObj) (s : State)
    (hf : v.depth < f) (hs : InvS s) :
    InvS (add_value_fuel f s v).1 ∧
    1 ≤ (add_value_fuel f s v).2 ∧
    (add_value_fuel f s v).2 = ((add_value_fuel f s v).1.values.length : Int) ∧
    s.values.length ≤ (add_value_fuel f s v).1.values.length := by
  induction f generalizing v s with
  | zero => omega
  | succ n ih =>
    rw [add_value_fuel]
    by_cases h : v = PyObj.pytype
    · rw [if_pos h]
      refine ⟨⟨?_, ?_⟩, ?_, ?_, ?_⟩
      · exact valuesOkFrom_append 1 s.values _ hs.1 (by ring)
          (by push_cast; omega) (by push_cast; omega)
      · intro p hp
        rcases insertST_mem _ _ _ _ hp with hmem | rfl
        · have hb := hs.2 p hmem
          refine ⟨hb.1, le_trans hb.2 ?_⟩
          simp
        · refine ⟨by omega, ?_⟩
          simp
      · dsimp only
        omega
      · simp
      · simp
    · rw [if_neg h]
      cases hst : lookupST v.typeOf s.shared_types with
      | some x =>
        simp only [hst]
        have hx : 1 ≤ x ∧ x ≤ (s.values.length : Int) :=
          hs.2 _ (lookupST_mem _ _ _ hst)
        refine ⟨⟨?_, ?_⟩, ?_, ?_, ?_⟩
        · exact valuesOkFrom_append 1 s.values _ hs.1 (by push_cast; ring)
            (by simp; omega) (by simp; omega)
        · intro p hp
          have hb := hs.2 p hp
          refine ⟨hb.1, le_trans hb.2 ?_⟩
          simp
        · omega
        · simp
        · simp
      | none =>
        simp only [hst]
        have hdt : v.typeOf.depth < n := by
          have := PyObj.depth_typeOf_lt v h
          omega
        obtain ⟨⟨hv1, hv2⟩, hr1, hr2, hr3⟩ := ih v.typeOf s hdt hs
        set p := add_value_fuel n s v.typeOf with hp
        have hlk : lookupST v.typeOf
            (insertST v.typeOf p.2 p.1.shared_types) = some p.2 :=
          lookupST_insertST_self _ _ _
        refine ⟨⟨?_, ?_⟩, ?_, ?_, ?_⟩
        · exact valuesOkFrom_append 1 p.1.values _ hv1 (by push_cast; ring)
            (by simp [hlk]; omega) (by simp [hlk]; omega)
        · intro q hq
          rcases insertST_mem _ _ _ _ hq with hmem | rfl
          · have hb := hv2 q hmem
            refine ⟨hb.1, le_trans hb.2 ?_⟩
            simp
          · refine ⟨by simpa using hr1, ?_⟩
            simp
            omega
        · omega
        · simp
        · calc s.values.length ≤ p.1.values.length := hr3
            _ ≤ _ := by simp

/-- `add_value` preserves the C8 invariant. -/
theorem add_value_inv (s : State) (v : PyObj) (hs : InvS s) :
    InvS (add_value s v).1 :=
  (add_value_fuel_inv (v.depth + 1) v s (by omega) hs).1

/-- Every reachable state satisfies the C8 invariant. -/
theorem reachable_inv (s : State) (hs : Reachable s) : InvS s := by
  induction hs with
  | init g =>
    constructor
    · trivial
    · intro p hp
      simp [State.init] at hp
  | step s0 v _ ih => exact add_value_inv s0 v ih

/-- Descending the (strictly decreasing until self-typed) `type_id` chain
reaches a self-typed Value. -/
theorem typeStep_descend (s : State) (hInv : InvS s) :
    ∀ m : Nat, ∀ i : Int, i.toNat ≤ m → 1 ≤ i → i ≤ (s.values.length : Int) →
      ∃ n, isSelfTypedB s ((typeStep s)^[n] i) = true := by
  intro m
  induction m with
  | zero => intro i h0 h1 _; omega
  | succ m ih =>
    intro i h0 h1 h2
    obtain ⟨v, hfind, hid, ht1, ht2⟩ :=
      valuesOkFrom_find 1 s.values i hInv.1 h1 (by omega)
    by_cases hself : v.type_id = i
    · refine ⟨0, ?_⟩
      simp only [Function.iterate_zero, id_eq, isSelfTypedB, hfind]
      simp [hself]
    · have hlt : v.type_id < i := lt_of_le_of_ne ht2 hself
      obtain ⟨n, hn⟩ := ih v.type_id (by omega) ht1 (by omega)
      refine ⟨n + 1, ?_⟩
      rw [Function.iterate_succ_apply,
          show typeStep s i = v.type_id from by simp [typeStep, hfind]]
      exact hn

/-- C8: in every reachable state, following `type_id` from any Value
reaches, in a bounded number of steps, a self-typed root Value (the
`type`-of-types encoding whose `type_id` is its own id). -/
theorem C8_type_chain_terminates (s : State) (hs : Reachable s) (v : Value)
    (hv : v ∈ s.values) :
    ∃ n, isSelfTypedB s ((typeStep s)^[n] v.id) = true := by
  have hInv : InvS s := reachable_inv s hs
  have hb := valuesOkFrom_mem 1 s.values v hInv.1 hv
  exact typeStep_descend s hInv v.id.toNat v.id le_rfl hb.1
    (by omega)

/-! ### Execution lemmas for `_call` -/

theorem getAct_some_id (s : State) (i : Int) (a : Activation)
    (h : getAct s i = some a) : a.id = i := by
  have := List.find?_some h
  simpa using this

theorem getEval_updEval_self (s : State) (i : Int) (f : Evaluation → Evaluation)
    (hf : ∀ e, (f e).id = e.id) :
    getEval (updEval s i f) i = (getEval s i).map f := by
  unfold getEval updEval
  simp only
  induction s.evaluations with
  | nil => rfl
  | cons e rest ih =>
    by_cases h : (e.id == i) = true
    · have hfe : ((f e).id == i) = true := by rw [hf e]; exact h
      rw [List.map_cons,
          show (if (e.id == i) = true then f e else e) = f e from by simp [h]]
      simp only [List.find?_cons, hfe, h]
      rfl
    · have h2 : (e.id == i) = false := by simpa using h
      rw [List.map_cons,
          show (if (e.id == i) = true then f e else e) = e from by simp [h2]]
      simp only [List.find?_cons, h2]
      exact ih

theorem add_value_dependencies (s : State) (v : PyObj) :
    (add_value s v).1.dependencies = s.dependencies := by
  obtain ⟨A, B, h⟩ := add_value_shape s v
  rw [h]

theorem add_value_depHeap (s : State) (v : PyObj) :
    (add_value s v).1.depHeap = s.depHeap := by
  obtain ⟨A, B, h⟩ := add_value_shape s v
  rw [h]

theorem add_value_exceptions (s : State) (v : PyObj) :
    (add_value s v).1.exceptions = s.exceptions := by
  obtain ⟨A, B, h⟩ := add_value_shape s v
  rw [h]

theorem add_value_evaluations (s : State) (v : PyObj) :
    (add_value s v).1.evaluations = s.evaluations := by
  obtain ⟨A, B, h⟩ := add_value_shape s v
  rw [h]

theorem add_value_activations (s : State) (v : PyObj) :
    (add_value s v).1.activations = s.activations := by
  obtain ⟨A, B, h⟩ := add_value_shape s v
  rw [h]

theorem add_value_last_activation (s : State) (v : PyObj) :
    (add_value s v).1.last_activation = s.last_activation := by
  obtain ⟨A, B, h⟩ := add_value_shape s v
  rw [h]

theorem getEval_add_value (s : State) (v : PyObj) (i : Int) :
    getEval (add_value s v).1 i = getEval s i := by
  obtain ⟨A, B, h⟩ := add_value_shape s v
  rw [h]
  rfl

theorem firstMatch_none (s : State) (v : PyObj) (l : List Nat)
    (h : ∀ k ∈ l, ∀ dep, getDep s k = some dep → dep.value ≠ v) :
    firstMatch s v l = none := by
  induction l with
  | nil => rfl
  | cons k rest ih =>
    rw [firstMatch]
    cases hk : getDep s k with
    | none =>
      exact ih (fun j hj dep hdep => h j (List.mem_cons_of_mem _ hj) dep hdep)
    | some dep =>
      dsimp only
      rw [if_neg (h k (List.mem_cons_self _ _) dep hk)]
      exact ih (fun j hj dep2 hdep2 => h j (List.mem_cons_of_mem _ hj) dep2 hdep2)

/-- Without a matching Dependency, the non-creating bind rule is a no-op. -/
theorem find_value_id_nomatch (s : State) (v : PyObj) (d : DependencyAware)
    (h : ∀ k ∈ d.dependencies, ∀ dep, getDep s k = some dep → dep.value ≠ v) :
    find_value_id s v (some d) false = (s, none) := by
  unfold find_value_id
  dsimp only
  by_cases hcond : ((!(isImmutable v)) || d.dependencies.length = 1) = true
  · rw [if_pos hcond]
    unfold bindRewrite
    rw [firstMatch_none s v d.dependencies h]
    rfl
  · rw [if_neg hcond]
    rfl

theorem depRows_congr (s1 s2 : State) (aid eid : Int) (d : DependencyAware)
    (h : s1.depHeap = s2.depHeap) :
    depRows s1 aid eid d = depRows s2 aid eid d := by
  unfold depRows getDep
  rw [h]

theorem argRows_congr (s1 s2 : State) (aid eid : Int) (d : DependencyAware)
    (h : s1.depHeap = s2.depHeap) :
    argRows s1 aid eid d = argRows s2 aid eid d := by
  unfold argRows getDep
  rw [h]

/-- `close_activation` under known evaluation and caller records. -/
theorem close_activation_spec (s : State) (actId : Int) (vid : Option Int)
    (ev : Evaluation) (ca : Activation)
    (hev : getEval s actId = some ev)
    (hca : getAct s ev.activation_id = some ca) :
    close_activation s actId vid
      = { updEval (time s).1 actId
            (fun e => { e with moment := some (time s).2, value_id := vid }) with
          last_activation := ca.id } := by
  unfold close_activation
  dsimp only
  have h1 : getEval (updEval (time s).1 actId
      (fun e => { e with moment := some (time s).2, value_id := vid })) actId
      = some { ev with moment := some (time s).2, value_id := vid } := by
    rw [getEval_updEval_self (time s).1 actId
        (fun e => { e with moment := some (time s).2, value_id := vid })
        (fun _ => rfl)]
    rw [show getEval (time s).1 actId = getEval s actId from rfl, hev]
    rfl
  rw [h1]
  dsimp only
  rw [show getAct (updEval (time s).1 actId
        (fun e => { e with moment := some (time s).2, value_id := vid }))
        ev.activation_id = getAct s ev.activation_id from rfl, hca]

theorem getAct_close_activation (s : State) (i : Int) (vid : Option Int) (j : Int) :
    getAct (close_activation s i vid) j = getAct s j := rfl

theorem close_activation_dependencies (s : State) (i : Int) (vid : Option Int) :
    (close_activation s i vid).dependencies = s.dependencies := rfl

theorem close_activation_depHeap (s : State) (i : Int) (vid : Option Int) :
    (close_activation s i vid).depHeap = s.depHeap := rfl

theorem close_activation_exceptions (s : State) (i : Int) (vid : Option Int) :
    (close_activation s i vid).exceptions = s.exceptions := rfl

/-- `last_activation` after `close_activation` is the caller's id. -/
theorem close_activation_last (s : State) (i : Int) (vid : Option Int)
    (ev : Evaluation) (ca : Activation)
    (hev : getEval s i = some ev) (hca : getAct s ev.activation_id = some ca) :
    (close_activation s i vid).last_activation = ca.id := by
  rw [close_activation_spec s i vid ev ca hev hca]

/-- The closed evaluation: its moment and value id are filled in. -/
theorem getEval_close_activation_self (s : State) (i : Int) (vid : Option Int)
    (ev : Evaluation) (ca : Activation)
    (hev : getEval s i = some ev) (hca : getAct s ev.activation_id = some ca) :
    getEval (close_activation s i vid) i
      = some { ev with moment := some (time s).2, value_id := vid } := by
  rw [close_activation_spec s i vid ev ca hev hca]
  have h0 : getEval
      { updEval (time s).1 i
          (fun e => { e with moment := some (time s).2, value_id := vid }) with
        last_activation := ca.id } i
      = getEval (updEval (time s).1 i
          (fun e => { e with moment := some (time s).2, value_id := vid })) i := rfl
  rw [h0, getEval_updEval_self (time s).1 i
      (fun e => { e with moment := some (time s).2, value_id := vid }) (fun _ => rfl),
      show getEval (time s).1 i = getEval s i from rfl, hev]
  rfl

theorem create_dependencies_some (s : State) (ev : Evaluation) (d : DependencyAware) :
    create_dependencies s ev (some d)
      = { s with dependencies := s.dependencies ++ depRows s ev.activation_id ev.id d } :=
  rfl

theorem create_argument_dependencies_eq (s : State) (ev : Evaluation)
    (d : DependencyAware) :
    create_argument_dependencies s ev d
      = { s with dependencies := s.dependencies ++ argRows s ev.activation_id ev.id d } :=
  rfl

theorem newDep_eq (s : State) (d : Dependency) :
    newDep s d = ({ s with depHeap := s.depHeap ++ [d] }, s.depHeap.length) := rfl

theorem updAct_dependencies (s : State) (i : Int) (f : Activation → Activation) :
    (updAct s i f).dependencies = s.dependencies := rfl

theorem updAct_exceptions (s : State) (i : Int) (f : Activation → Activation) :
    (updAct s i f).exceptions = s.exceptions := rfl

theorem getLast?_of_ne_nil (l : List DependencyAware) (h : l ≠ []) :
    ∃ t, l.getLast? = some t := by
  cases hl : l.getLast? with
  | some t => exact ⟨t, rfl⟩
  | none => exact absurd (List.getLast?_eq_none_iff.mp hl) h

/-- `addToTopScope` under a known activation with a known top scope. -/
theorem addToTopScope_ok (s : State) (i : Int) (k : Nat) (a : Activation)
    (top : DependencyAware)
    (ha : getAct s i = some a) (htop : a.depstack.getLast? = some top) :
    addToTopScope s i k
      = Except.ok (updAct s i (fun a2 =>
          { a2 with depstack := a2.depstack.dropLast
              ++ [{ top with dependencies := top.dependencies ++ [k] }] })) := by
  unfold addToTopScope updTop
  rw [ha]
  dsimp only
  rw [htop]

theorem newDep_last (s : State) (d : Dependency) :
    (newDep s d).1.last_activation = s.last_activation := rfl

theorem newDep_dependencies (s : State) (d : Dependency) :
    (newDep s d).1.dependencies = s.dependencies := rfl

theorem create_dependencies_last (s : State) (ev : Evaluation)
    (depa : Option DependencyAware) :
    (create_dependencies s ev depa).last_activation = s.last_activation := by
  cases depa <;> rfl

theorem create_argument_dependencies_last (s : State) (ev : Evaluation)
    (d : DependencyAware) :
    (create_argument_dependencies s ev d).last_activation = s.last_activation := rfl

theorem create_dependencies_some_dependencies (s : State) (ev : Evaluation)
    (d : DependencyAware) :
    (create_dependencies s ev (some d)).dependencies
      = s.dependencies ++ depRows s ev.activation_id ev.id d := rfl

theorem create_argument_dependencies_dependencies (s : State) (ev : Evaluation)
    (d : DependencyAware) :
    (create_argument_dependencies s ev d).dependencies
      = s.dependencies ++ argRows s ev.activation_id ev.id d := rfl

theorem create_dependencies_depHeap (s : State) (ev : Evaluation)
    (depa : Option DependencyAware) :
    (create_dependencies s ev depa).depHeap = s.depHeap := by
  cases depa <;> rfl

theorem create_argument_dependencies_depHeap (s : State) (ev : Evaluation)
    (d : DependencyAware) :
    (create_argument_dependencies s ev d).depHeap = s.depHeap := rfl

theorem create_dependencies_exceptions (s : State) (ev : Evaluation)
    (depa : Option DependencyAware) :
    (create_dependencies s ev depa).exceptions = s.exceptions := by
  cases depa <;> rfl

theorem create_argument_dependencies_exceptions (s : State) (ev : Evaluation)
    (d : DependencyAware) :
    (create_argument_dependencies s ev d).exceptions = s.exceptions := rfl

theorem getEval_create_dependencies (s : State) (ev : Evaluation)
    (depa : Option DependencyAware) (i : Int) :
    getEval (create_dependencies s ev depa) i = getEval s i := by
  cases depa <;> rfl

theorem getEval_create_argument_dependencies (s : State) (ev : Evaluation)
    (d : DependencyAware) (i : Int) :
    getEval (create_argument_dependencies s ev d) i = getEval s i := rfl

theorem getEval_collect_exception (s : State) (e : String) (j i : Int) :
    getEval (collect_exception s e j) i = getEval s i := rfl

theorem depRows_close_activation (s : State) (i : Int) (vid : Option Int)
    (aid eid : Int) (d : DependencyAware) :
    depRows (close_activation s i vid) aid eid d = depRows s aid eid d :=
  depRows_congr _ _ _ _ _ (close_activation_depHeap s i vid)

theorem depRows_add_value (s : State) (v : PyObj) (aid eid : Int)
    (d : DependencyAware) :
    depRows (add_value s v).1 aid eid d = depRows s aid eid d :=
  depRows_congr _ _ _ _ _ (add_value_depHeap s v)

theorem depRows_collect_exception (s : State) (e : String) (j aid eid : Int)
    (d : DependencyAware) :
    depRows (collect_exception s e j) aid eid d = depRows s aid eid d :=
  depRows_congr _ _ _ _ _ rfl

theorem argRows_close_activation (s : State) (i : Int) (vid : Option Int)
    (aid eid : Int) (d : DependencyAware) :
    argRows (close_activation s i vid) aid eid d = argRows s aid eid d :=
  argRows_congr _ _ _ _ _ (close_activation_depHeap s i vid)

theorem argRows_add_value (s : State) (v : PyObj) (aid eid : Int)
    (d : DependencyAware) :
    argRows (add_value s v).1 aid eid d = argRows s aid eid d :=
  argRows_congr _ _ _ _ _ (add_value_depHeap s v)

theorem argRows_create_dependencies (s : State) (ev : Evaluation)
    (depa : Option DependencyAware) (aid eid : Int) (d : DependencyAware) :
    argRows (create_dependencies s ev depa) aid eid d = argRows s aid eid d :=
  argRows_congr _ _ _ _ _ (create_dependencies_depHeap s ev depa)

theorem argRows_collect_exception (s : State) (e : String) (j aid eid : Int)
    (d : DependencyAware) :
    argRows (collect_exception s e j) aid eid d = argRows s aid eid d :=
  argRows_congr _ _ _ _ _ rfl

theorem collect_exception_last (s : State) (e : String) (j : Int) :
    (collect_exception s e j).last_activation = s.last_activation := rfl

theorem collect_exception_dependencies (s : State) (e : String) (j : Int) :
    (collect_exception s e j).dependencies = s.dependencies := rfl

/-! ### C4 -/

theorem firstMatch_some_value (s : State) (value : PyObj) (l : List Nat)
    (k : Nat) (dep : Dependency) (hfm : firstMatch s value l = some k)
    (hdep : getDep s k = some dep) : dep.value = value := by
  induction l with
  | nil => simp [firstMatch] at hfm
  | cons j rest ih =>
    rw [firstMatch] at hfm
    cases hj : getDep s j with
    | none =>
      rw [hj] at hfm
      dsimp only at hfm
      exact ih hfm
    | some dj =>
      rw [hj] at hfm
      dsimp only at hfm
      by_cases hv : dj.value = value
      · rw [if_pos hv] at hfm
        obtain rfl := Option.some.inj hfm
        rw [hj] at hdep
        obtain rfl := Option.some.inj hdep
        exact hv
      · rw [if_neg hv] at hfm
        exact ih hfm

/-- C4: the bind rule of `find_value_id`.  (i) The matched Dependency
references the exact same runtime object by identity.  (ii) When (for a
mutable value, or a single-dependency scope) a Dependency matches, its
value id is reused as the result, the values store is untouched, and only
that Dependency's mode is rewritten in place -- a mode starting with
`dependency` becomes `assign`, a mode already ending in `-bind` stays, and
any other mode gains the `-bind` suffix.  (iii) For an immutable value with
more than one collected dependency no reuse happens: a fresh Value is
interned when creation is enabled.  (iv) Likewise when no dependency
matches. -/
theorem C4_bind_rule (s : State) (value : PyObj) (d : DependencyAware)
    (c : Bool) :
    (∀ k dep, firstMatch s value d.dependencies = some k →
       getDep s k = some dep → dep.value = value) ∧
    (∀ k dep vid, ((!(isImmutable value)) || d.dependencies.length = 1) = true →
       firstMatch s value d.dependencies = some k →
       getDep s k = some dep → dep.value_id = some vid →
       find_value_id s value (some d) c
         = (setDep s k { dep with mode := bindModeRewrite dep.mode }, some vid) ∧
       (setDep s k { dep with mode := bindModeRewrite dep.mode }).values
         = s.values) ∧
    (isImmutable value = true → d.dependencies.length ≠ 1 →
       find_value_id s value (some d) c
         = (if c then ((add_value s value).1, some (add_value s value).2)
            else (s, none))) ∧
    (firstMatch s value d.dependencies = none →
       find_value_id s value (some d) c
         = (if c then ((add_value s value).1, some (add_value s value).2)
            else (s, none))) ∧
    (∀ m : String, strStartsWith m "dependency" = true →
       bindModeRewrite m = "assign") ∧
    (∀ m : String, strStartsWith m "dependency" = false →
       strEndsWith m "-bind" = true → bindModeRewrite m = m) ∧
    (∀ m : String, strStartsWith m "dependency" = false →
       strEndsWith m "-bind" = false → bindModeRewrite m = m ++ "-bind") := by
  refine ⟨?_, ?_, ?_, ?_, ?_, ?_, ?_⟩
  · intro k dep hfm hdep
    exact firstMatch_some_value s value d.dependencies k dep hfm hdep
  · intro k dep vid hcond hfm hdep hvid
    constructor
    · unfold find_value_id
      dsimp only
      rw [if_pos hcond]
      unfold bindRewrite
      rw [hfm]
      dsimp only
      rw [hdep]
      dsimp only
      rw [hvid]
    · rfl
  · intro himm hlen
    unfold find_value_id
    dsimp only
    rw [if_neg (by simp [himm, hlen])]
  · intro hfm
    unfold find_value_id
    dsimp only
    by_cases hcond : ((!(isImmutable value)) || d.dependencies.length = 1) = true
    · rw [if_pos hcond]
      unfold bindRewrite
      rw [hfm]
    · rw [if_neg hcond]
  · intro m hm
    unfold bindModeRewrite
    rw [if_pos hm]
  · intro m hm1 hm2
    unfold bindModeRewrite
    rw [if_neg (by simp [hm1]), if_pos hm2]
  · intro m hm1 hm2
    unfold bindModeRewrite
    rw [if_neg (by simp [hm1]), if_neg (by simp [hm2])]

/-- A one-Dependency heap exercising the bind rule's match case. -/
def c4State : State :=
  { State.init [] with depHeap :=
      [{ activation_id := 1, evaluation_id := 2, value := vInt5,
         value_id := some 9, mode := "dependency" }] }

/-- Witness for C4 at a concrete scope: the single `dependency`-mode
Dependency on the int `5` is matched, its value id 9 reused, and its mode
rewritten to `assign`. -/
theorem C4_witness :
    Collector.find_value_id c4State vInt5 (some { dependencies := [0] }) true
      = (Collector.setDep c4State 0
          { activation_id := 1, evaluation_id := 2, value := vInt5,
            value_id := some 9,
            mode := Collector.bindModeRewrite "dependency" }, some 9) ∧
    (Collector.setDep c4State 0
          { activation_id := 1, evaluation_id := 2, value := vInt5,
            value_id := some 9,
            mode := Collector.bindModeRewrite "dependency" }).values
      = c4State.values :=
  (C4_bind_rule c4State vInt5 { dependencies := [0] } true).2.1 0
    { activation_id := 1, evaluation_id := 2, value := vInt5,
      value_id := some 9, mode := "dependency" } 9
    (by decide) (by decide) (by decide) (by decide)

/-- Witness for C8 at the two-step reachable state interning the int `5`:
the chain from the Value of `5` reaches the self-typed root. -/
theorem C8_witness :
    ∃ n, isSelfTypedB ((add_value (State.init []) vInt5).1)
      ((typeStep ((add_value (State.init []) vInt5).1))^[n]
        (Value.id { id := 3, rep := "5", type_id := 2 })) = true :=
  C8_type_chain_terminates ((add_value (State.init []) vInt5).1)
    (Reachable.step (State.init []) vInt5 (Reachable.init []))
    { id := 3, rep := "5", type_id := 2 } (by decide)

/-! ### C5 -/

/-- C5: For a completed `_call` (no user exception) whose callee collected a
single scope in which the bind rule finds no identity match, the committed
edges are exactly the edges drawn from that scope plus, exactly when the
callee has no known definition (`code_block_id = -1`, e.g. a builtin), one
`dependency`-mode edge per collected dep whose mode starts with `argument`
(the `argRows`); for calls with a known definition these extra edges are not
emitted. -/
theorem C5_builtin_argument_edges (s : State) (a ca : Activation)
    (ev : Evaluation) (d0 top : DependencyAware) (r : PyObj)
    (ha : getAct s s.last_activation = some a)
    (hstack : a.depstack = [d0])
    (hev : getEval s s.last_activation = some ev)
    (hca : getAct s ev.activation_id = some ca)
    (htop : ca.depstack.getLast? = some top)
    (hnm : ∀ k ∈ d0.dependencies, ∀ dep, getDep s k = some dep → dep.value ≠ r) :
    ∃ sF, _call s (fun st => (st, Except.ok r)) = Except.ok (sF, Except.ok r) ∧
      sF.dependencies
        = s.dependencies ++ depRows s ev.activation_id ev.id d0
            ++ (if a.code_block_id = some (-1) then
                  argRows s ev.activation_id ev.id d0
                else []) := by
  have hcaid : ca.id = ev.activation_id := getAct_some_id s ev.activation_id ca hca
  have hnm2 : find_value_id s r (some d0) false = (s, none) :=
    find_value_id_nomatch s r d0 hnm
  have hcfv : callFindValue s [d0] r = (s, none) := by
    unfold callFindValue
    rw [hnm2]
    rfl
  have hev3 : getEval (add_value s r).1 s.last_activation = some ev := by
    rw [getEval_add_value]
    exact hev
  have hca3 : getAct (add_value s r).1 ev.activation_id = some ca := by
    rw [getAct_add_value]
    exact hca
  unfold _call
  dsimp only
  rw [ha]
  dsimp only
  rw [hstack, hcfv]
  dsimp only
  simp only [getAct_close_activation, getAct_add_value]
  rw [ha]
  dsimp only
  rw [hstack]
  simp only [List.head?_cons]
  rw [getEval_close_activation_self _ _ _ ev ca hev3 hca3]
  dsimp only
  by_cases hcb : a.code_block_id = some (-1)
  all_goals first
    | rw [if_pos hcb]
    | rw [if_neg hcb]
  all_goals
    simp only [newDep_last, add_value_last_activation,
      create_argument_dependencies_last, create_dependencies_last]
  all_goals rw [close_activation_last _ _ _ ev ca hev3 hca3]
  all_goals unfold addToTopScope updTop
  all_goals
    simp only [getAct_newDep, getAct_add_value, getAct_create_argument_dependencies,
      getAct_create_dependencies, getAct_close_activation]
  all_goals rw [hcaid, hca]
  all_goals dsimp only
  all_goals rw [htop]
  all_goals dsimp only
  all_goals refine ⟨_, rfl, ?_⟩
  all_goals
    simp only [updAct_dependencies, newDep_dependencies, add_value_dependencies,
      create_argument_dependencies_dependencies, create_dependencies_some_dependencies,
      close_activation_dependencies, depRows_close_activation, depRows_add_value,
      argRows_create_dependencies, argRows_close_activation, argRows_add_value,
      List.append_nil]
  · rw [if_pos hcb]
  · rw [if_neg hcb, List.append_nil]

/-- The single `argument`-mode Dependency collected for the builtin call of
the C5 witness. -/
def c5Dep : Dependency :=
  { activation_id := 1, evaluation_id := 5, value := pyNone,
    value_id := some 4, mode := "argument" }

/-- A builtin-shaped call state: activation 2 (the callee, no known
definition) over caller 1, one collected scope holding one `argument` dep. -/
def c5State : State :=
  { State.init [] with
    evaluations :=
      [{ id := 1, code_component_id := -1, activation_id := -1,
         moment := none, value_id := none },
       { id := 2, code_component_id := 9, activation_id := 1,
         moment := none, value_id := none }],
    activations :=
      [{ id := 1, name := "<now>", start := none, code_block_id := none,
         depstack := [{}] },
       { id := 2, name := "len", start := some 1, code_block_id := some (-1),
         depstack := [{ dependencies := [0] }] }],
    depHeap := [c5Dep],
    last_activation := 2 }

/-- Witness for C5 at the concrete builtin-call state. -/
theorem C5_witness :
    ∃ sF, _call c5State (fun st => (st, Except.ok vInt5))
        = Except.ok (sF, Except.ok vInt5) ∧
      sF.dependencies
        = c5State.dependencies ++ depRows c5State 1 2 { dependencies := [0] }
            ++ (if (some (-1) : Option Int) = some (-1) then
                  argRows c5State 1 2 { dependencies := [0] }
                else []) :=
  C5_builtin_argument_edges c5State
    { id := 2, name := "len", start := some 1, code_block_id := some (-1),
      depstack := [{ dependencies := [0] }] }
    { id := 1, name := "<now>", start := none, code_block_id := none,
      depstack := [{}] }
    { id := 2, code_component_id := 9, activation_id := 1,
      moment := none, value_id := none }
    { dependencies := [0] } {} vInt5
    (by decide) (by decide) (by decide) (by decide) (by decide)
    (by
      intro k hk dep hdep
      have hk0 : k = 0 := by simpa using hk
      subst hk0
      rw [show getDep c5State 0 = some c5Dep from rfl] at hdep
      injection hdep with h
      subst h
      decide)

/-! ### C6 -/

/-- C6: If the user callable raises inside `_call`, the exception is
recorded against the current activation and re-raised unchanged, and the
guaranteed-cleanup phase still runs: the return value (`None` here) gets a
freshly interned value id, the activation is closed (its evaluation's moment
and value id filled, `last_activation` restored to the caller), and the
dependency edges are drawn from the collected scope into the call's
evaluation. -/
theorem C6_exception_cleanup (s : State) (a ca : Activation)
    (ev : Evaluation) (d0 : DependencyAware) (emsg : String)
    (ha : getAct s s.last_activation = some a)
    (hstack : a.depstack = [d0])
    (hev : getEval s s.last_activation = some ev)
    (hca : getAct s ev.activation_id = some ca)
    (hnm : ∀ k ∈ d0.dependencies, ∀ dep, getDep s k = some dep →
             dep.value ≠ pyNone) :
    ∃ sF, _call s (fun st => (st, Except.error emsg))
        = Except.ok (sF, Except.error emsg) ∧
      sF.exceptions = s.exceptions ++ [(emsg, s.last_activation)] ∧
      (∃ m vid, getEval sF s.last_activation
          = some { ev with moment := some m, value_id := some vid }) ∧
      sF.last_activation = ca.id ∧
      sF.dependencies
        = s.dependencies ++ depRows s ev.activation_id ev.id d0
            ++ (if a.code_block_id = some (-1) then
                  argRows s ev.activation_id ev.id d0
                else []) := by
  have hnm2 : find_value_id (collect_exception s emsg s.last_activation) pyNone
      (some d0) false = (collect_exception s emsg s.last_activation, none) :=
    find_value_id_nomatch _ _ _ (fun k hk dep hdep => hnm k hk dep hdep)
  have hcfv : callFindValue (collect_exception s emsg s.last_activation) [d0] pyNone
      = (collect_exception s emsg s.last_activation, none) := by
    unfold callFindValue
    rw [hnm2]
    rfl
  have hev3 : getEval (add_value (collect_exception s emsg s.last_activation) pyNone).1
      s.last_activation = some ev := by
    rw [getEval_add_value, getEval_collect_exception]
    exact hev
  have hca3 : getAct (add_value (collect_exception s emsg s.last_activation) pyNone).1
      ev.activation_id = some ca := by
    rw [getAct_add_value, getAct_collect_exception]
    exact hca
  unfold _call
  dsimp only
  rw [show getAct (collect_exception s emsg s.last_activation) s.last_activation
        = getAct s s.last_activation from rfl, ha]
  dsimp only
  rw [hstack, hcfv]
  dsimp only
  simp only [getAct_close_activation, getAct_add_value, getAct_collect_exception]
  rw [ha]
  dsimp only
  rw [hstack]
  simp only [List.head?_cons]
  rw [getEval_close_activation_self _ _ _ ev ca hev3 hca3]
  dsimp only
  by_cases hcb : a.code_block_id = some (-1)
  all_goals first
    | rw [if_pos hcb]
    | rw [if_neg hcb]
  all_goals refine ⟨_, rfl, ?_, ?_, ?_, ?_⟩
  case pos.refine_1 | neg.refine_1 =>
    simp only [create_argument_dependencies_exceptions, create_dependencies_exceptions,
      close_activation_exceptions, add_value_exceptions]
    rfl
  case pos.refine_2 | neg.refine_2 =>
    refine ⟨(time (add_value (collect_exception s emsg s.last_activation) pyNone).1).2,
      (add_value (collect_exception s emsg s.last_activation) pyNone).2, ?_⟩
    simp only [getEval_create_argument_dependencies, getEval_create_dependencies]
    rw [getEval_close_activation_self _ _ _ ev ca hev3 hca3]
  case pos.refine_3 | neg.refine_3 =>
    simp only [create_argument_dependencies_last, create_dependencies_last]
    rw [close_activation_last _ _ _ ev ca hev3 hca3]
  case pos.refine_4 =>
    simp only [create_argument_dependencies_dependencies,
      create_dependencies_some_dependencies, close_activation_dependencies,
      add_value_dependencies, collect_exception_dependencies,
      depRows_close_activation, depRows_add_value, depRows_collect_exception,
      argRows_create_dependencies, argRows_close_activation, argRows_add_value,
      argRows_collect_exception]
    rw [if_pos hcb]
  case neg.refine_4 =>
    simp only [create_dependencies_some_dependencies, close_activation_dependencies,
      add_value_dependencies, collect_exception_dependencies,
      depRows_close_activation, depRows_add_value, depRows_collect_exception,
      List.append_nil]
    rw [if_neg hcb, List.append_nil]

/-- The collected `argument` dep for the C6 witness (its value is not
`None`, so the bind rule finds no match for the `None` result). -/
def c6Dep : Dependency :=
  { activation_id := 1, evaluation_id := 5, value := vInt5,
    value_id := some 4, mode := "argument" }

/-- The C6 witness state: like the C5 one, but the collected dep references
the integer object, not `None`. -/
def c6State : State :=
  { State.init [] with
    evaluations :=
      [{ id := 1, code_component_id := -1, activation_id := -1,
         moment := none, value_id := none },
       { id := 2, code_component_id := 9, activation_id := 1,
         moment := none, value_id := none }],
    activations :=
      [{ id := 1, name := "<now>", start := none, code_block_id := none,
         depstack := [{}] },
       { id := 2, name := "len", start := some 1, code_block_id := some (-1),
         depstack := [{ dependencies := [0] }] }],
    depHeap := [c6Dep],
    last_activation := 2 }

/-- Witness for C6 at the concrete state, with a raising callable. -/
theorem C6_witness :
    ∃ sF, _call c6State (fun st => (st, Except.error "ValueError"))
        = Except.ok (sF, Except.error "ValueError") ∧
      sF.exceptions = c6State.exceptions ++ [("ValueError", c6State.last_activation)] ∧
      (∃ m vid, getEval sF c6State.last_activation
          = some { id := 2, code_component_id := 9, activation_id := 1,
                   moment := some m, value_id := some vid }) ∧
      sF.last_activation = 1 ∧
      sF.dependencies
        = c6State.dependencies ++ depRows c6State 1 2 { dependencies := [0] }
            ++ (if (some (-1) : Option Int) = some (-1) then
                  argRows c6State 1 2 { dependencies := [0] }
                else []) :=
  C6_exception_cleanup c6State
    { id := 2, name := "len", start := some 1, code_block_id := some (-1),
      depstack := [{ dependencies := [0] }] }
    { id := 1, name := "<now>", start := none, code_block_id := none,
      depstack := [{}] }
    { id := 2, code_component_id := 9, activation_id := 1,
      moment := none, value_id := none }
    { dependencies := [0] } "ValueError"
    (by decide) (by decide) (by decide) (by decide)
    (by
      intro k hk dep hdep
      have hk0 : k = 0 := by simpa using hk
      subst hk0
      rw [show getDep c6State 0 = some c6Dep from rfl] at hdep
      injection hdep with h
      subst h
      decide)

/-! ### C7 -/

/-- The runtime object for the literal `1`. -/
def intObj1 : PyObj := PyObj.obj 11 (PyObj.cls "int" PyObj.pytype) "1"

/-- The runtime object for the literal `2`. -/
def intObj2 : PyObj := PyObj.obj 12 (PyObj.cls "int" PyObj.pytype) "2"

/-- The runtime object for the literal `3`. -/
def intObj3 : PyObj := PyObj.obj 13 (PyObj.cls "int" PyObj.pytype) "3"

/-- The inner tuple object `(2, 3)` of the C7 run. -/
def tupObj23 : PyObj := PyObj.obj 21 (PyObj.cls "tuple" PyObj.pytype) "(2, 3)"

/-- The RHS object of `a, (b, c) = (1, (2, 3))`. -/
def rhs7 : PyObj :=
  PyObj.seq 30 "tuple" [(11, "int", "1"), (21, "tuple", "(2, 3)")]

/-- The target tree of `a, (b, c) = (1, (2, 3))`: a multiple target whose
second sub-target is itself a multiple (nested unpacking). -/
def tgt7 : Target :=
  Target.multiple
    [Target.single 101 (some "a") intObj1,
     Target.multiple
       [Target.single 102 (some "b") intObj2,
        Target.single 103 (some "c") intObj3] tupObj23]
    rhs7

/-- C7 (refuting the claim): `assign` does not support nested unpacking.
Python's `assign` returns a width only in the `single` branch and falls off
the end of the `multiple` branch returning `None`, so the accumulation
`delta += self.assign(...)` over a nested tuple sub-target raises
`TypeError: unsupported operand type(s)`; the single-target case does return
width 1 as claimed. -/
theorem C7_nested_unpack_type_error :
    assign (State.init []) 1 (5, rhs7, DepaIn.one {}) tgt7
      = Except.error "TypeError: unsupported operand" ∧
    ∃ p, assign (State.init []) 1 (5, intObj1, DepaIn.one {})
        (Target.single 101 (some "a") intObj1) = Except.ok (p, some 1) :=
  ⟨rfl, ⟨_, rfl⟩⟩

/-! ### C1 -/

/-- The RHS object of the C1 run: the list `[1, 2, 3]`. -/
def rhs1 : PyObj :=
  PyObj.seq 40 "list" [(11, "int", "1"), (12, "int", "2"), (13, "int", "3")]

/-- Collected dep for index 0 of the RHS (evaluation 50, value id 71). -/
def dep50 : Dependency :=
  { activation_id := 1, evaluation_id := 50, value := intObj1,
    value_id := some 71, mode := "assign" }

/-- Collected dep for index 1 of the RHS (evaluation 51, value id 72). -/
def dep51 : Dependency :=
  { activation_id := 1, evaluation_id := 51, value := intObj2,
    value_id := some 72, mode := "assign" }

/-- Collected dep for index 2 of the RHS (evaluation 52, value id 73). -/
def dep52 : Dependency :=
  { activation_id := 1, evaluation_id := 52, value := intObj3,
    value_id := some 73, mode := "assign" }

/-- Initial state of the C1 run: the three per-element deps on the heap. -/
def c1State : State := { State.init [] with depHeap := [dep50, dep51, dep52] }

/-- The caller-supplied per-element dependency list (one scope per RHS
index). -/
def c1Depas : DepaIn :=
  DepaIn.many
    [{ dependencies := [0] }, { dependencies := [1] }, { dependencies := [2] }]

/-- The runtime value `[3]` that `c` receives in `a, *(b, *c) = [1, 2, 3]`. -/
def vcList : PyObj := PyObj.seq 41 "list" [(13, "int", "3")]

/-- The runtime value `[2, 3]` that the outer star receives. -/
def vInner : PyObj := PyObj.seq 42 "list" [(12, "int", "2"), (13, "int", "3")]

/-- The target tree of `a, *(b, *c) = [1, 2, 3]`: the inner starred target
is the last sub-target of its multiple, so its `rdelta` stays `-1`. -/
def tgtC1 : Target :=
  Target.multiple
    [Target.single 201 (some "a") intObj1,
     Target.starred
       (Target.multiple
         [Target.single 202 (some "b") intObj2,
          Target.starred (Target.single 203 (some "c") vcList) vcList]
         vInner)
       vInner]
    rhs1

/-- C1 (refuting the claim): when the starred target is the last sub-target
(`rdelta = -1`), the code slices `value[delta : rdelta+1] = value[delta:0]`,
which is empty, not the claimed `value[delta : len(value)+rdelta+1]
= value[delta : len(value)]`.  In the run `a, *(b, *c) = [1, 2, 3]` with
per-element deps, the inner star is re-sliced from the already-empty slice,
so `c` (evaluation 4) is bound with zero dependency edges -- its provenance
is lost -- while `b` (evaluation 3) still gets its expected edge. -/
theorem C1_starred_slice_empty :
    ∃ p, assign c1State 1 (5, rhs1, c1Depas) tgtC1 = Except.ok p ∧
      (getAct p.1 1).map (fun a => lookupStr "c" a.context) = some (some 4) ∧
      p.1.dependencies.filter (fun e => e.dependent_evaluation_id == 4) = [] ∧
      (p.1.dependencies.filter (fun e => e.dependent_evaluation_id == 3)).map
        (fun e => (e.dependency_evaluation_id, e.mode)) = [(51, "assign-bind")] := by
  refine ⟨_, rfl, ?_, ?_, ?_⟩ <;> decide

end NW
